import Mathlib

/-!
Verification of the finbrodataprep analysis-orchestration and rating-synthesis
subsystem.  The Python sources under `src/` are shallowly embedded: pure string
manipulation is modelled over `List Char` / `String`, machine floats by `ℚ`,
fallible calls by `Except String`, and external collaborators (the LLM clients,
the news search) by oracle functions passed as parameters.
-/

/-! ### Python string helpers -/

/-- The double-quote character (written numerically to keep the embedding
    free of quote-in-quote literals). -/
def qq : Char := Char.ofNat 34

/-- The backslash character. -/
def bsl : Char := Char.ofNat 92

/-- The backquote character used by fenced code blocks. -/
def bq : Char := Char.ofNat 96

/-- Python `str.isspace` on the ASCII range, the set stripped by `str.strip()`
    and matched by the regex class `\s`. -/
def isPyWs (c : Char) : Bool :=
  c = ' ' || c = '\t' || c = '\n' || c = '\r' || c = Char.ofNat 11 || c = Char.ofNat 12

/-- Python `str.strip()` over a character list. -/
def stripList (l : List Char) : List Char :=
  ((l.dropWhile isPyWs).reverse.dropWhile isPyWs).reverse

/-- Python `str.strip()`. -/
def pyStrip (s : String) : String := String.mk (stripList s.data)

/-- Python `str.upper()` restricted to ASCII, the case relevant for tickers. -/
def pyUpper (s : String) : String := s.map Char.toUpper

/-! ### The rating enumeration and verdict record (`src/ratings/rater.py`, `Rating` /
    `RatingResult`) -/

/-- Enum for stock ratings (`class Rating(Enum)` in `rater.py`). -/
inductive Rating
  | STRONG_BUY
  | BUY
  | HOLD
  | SELL
  | STRONG_SELL
deriving DecidableEq, Repr

/-- The `.value` string attached to each enum member. -/
def Rating.value : Rating → String
  | .STRONG_BUY => "Strong Buy"
  | .BUY => "Buy"
  | .HOLD => "Hold"
  | .SELL => "Sell"
  | .STRONG_SELL => "Strong Sell"

/-- Python `Rating(v)` lookup by value: `some r` when `v` is one of the five
    enumerated strings, otherwise `none` (Python raises `ValueError`). -/
def Rating.fromValue (v : String) : Option Rating :=
  if v = "Strong Buy" then some .STRONG_BUY
  else if v = "Buy" then some .BUY
  else if v = "Hold" then some .HOLD
  else if v = "Sell" then some .SELL
  else if v = "Strong Sell" then some .STRONG_SELL
  else none

/-- The five-member enumeration as a list, for membership statements. -/
def fiveRatings : List Rating := [.STRONG_BUY, .BUY, .HOLD, .SELL, .STRONG_SELL]

/-- Data class `RatingResult` from `rater.py`; the float `confidence` is
    modelled by `ℚ`. -/
structure RatingResult where
  rating : Rating
  confidence : ℚ
  reasoning : String
  key_factors : List String
  risk_factors : List String
  recommendation_summary : String
deriving DecidableEq, Repr

/-! ### JSON values and a model of `json.loads`

The parser is a fuel-indexed recursive-descent reader of the JSON grammar as
accepted by Python's `json.loads` (strings with the common escapes, numbers
without leading zeros, arrays, objects with last-key-wins duplicate handling,
whitespace between tokens, and no trailing data).  `\uXXXX` escapes and the
recursion limit of CPython are not modelled. -/

/-- JSON values; numbers are modelled exactly by `ℚ`. -/
inductive JVal
  | jnull
  | jbool (b : Bool)
  | jnum (q : ℚ)
  | jstr (s : String)
  | jarr (xs : List JVal)
  | jobj (kvs : List (String × JVal))

/-- JSON insignificant whitespace. -/
def isJWs (c : Char) : Bool := c = ' ' || c = '\t' || c = '\n' || c = '\r'

/-- Skip JSON whitespace. -/
def skipJWs (l : List Char) : List Char := l.dropWhile isJWs

/-- Translation of a JSON string escape character. -/
def escChar (c : Char) : Option Char :=
  if c = qq then some qq
  else if c = bsl then some bsl
  else if c = '/' then some '/'
  else if c = 'n' then some '\n'
  else if c = 't' then some '\t'
  else if c = 'r' then some '\r'
  else if c = 'b' then some (Char.ofNat 8)
  else if c = 'f' then some (Char.ofNat 12)
  else none

/-- Parse the body of a JSON string after its opening quote; returns the
    decoded characters and the input after the closing quote.  Raw control
    characters are rejected, as by `json.loads` in strict mode. -/
def parseStrBody : List Char → Option (List Char × List Char)
  | [] => none
  | c :: rest =>
    if c = qq then some ([], rest)
    else if c = bsl then
      match rest with
      | [] => none
      | e :: rest2 =>
        match escChar e with
        | some d => (parseStrBody rest2).map (fun p => (d :: p.1, p.2))
        | none => none
    else if c.toNat < 32 then none
    else (parseStrBody rest).map (fun p => (c :: p.1, p.2))

/-- Numeric value of a digit character. -/
def digitVal (c : Char) : ℕ := c.toNat - 48

/-- Value of a digit-character run read in base 10. -/
def natOfDigits (l : List Char) : ℕ := l.foldl (fun a c => 10 * a + digitVal c) 0

/-- Parse the fractional digits after the decimal point. -/
def parseFrac (l : List Char) : Option (ℚ × List Char) :=
  let ds := l.takeWhile Char.isDigit
  if ds = [] then none
  else some ((natOfDigits ds : ℚ) / (10 : ℚ) ^ ds.length, l.dropWhile Char.isDigit)

/-- Parse an exponent part after `e`/`E`. -/
def parseExp (l : List Char) : Option (Int × List Char) :=
  let p : Int × List Char :=
    match l with
    | c :: r => if c = '-' then (-1, r) else if c = '+' then (1, r) else (1, l)
    | [] => (1, l)
  let ds := p.2.takeWhile Char.isDigit
  if ds = [] then none
  else some (p.1 * (natOfDigits ds : Int), p.2.dropWhile Char.isDigit)

/-- The optional fraction part after the integer digits: consumed only when a
    dot with at least one digit follows. -/
def fracPart (r1 : List Char) : ℚ × List Char :=
  match r1 with
  | c :: rf =>
    if c = '.' then
      match parseFrac rf with
      | some p => p
      | none => (0, r1)
    else (0, r1)
  | [] => (0, r1)

/-- The optional exponent part: consumed only when `e`/`E` with digits
    follows. -/
def expPart (r2 : List Char) : Int × List Char :=
  match r2 with
  | c :: re =>
    if c = 'e' ∨ c = 'E' then
      match parseExp re with
      | some p => p
      | none => (0, r2)
    else (0, r2)
  | [] => (0, r2)

/-- Parse a JSON number (sign, integer part without leading zeros, optional
    fraction, optional exponent).  A malformed fraction or exponent is left
    unconsumed, as by the CPython number regex. -/
def parseNumber (l : List Char) : Option (ℚ × List Char) :=
  let sp : Bool × List Char :=
    match l with
    | c :: r => if c = '-' then (true, r) else (false, l)
    | [] => (false, l)
  let ip := sp.2.takeWhile Char.isDigit
  let r1 := sp.2.dropWhile Char.isDigit
  match ip with
  | [] => none
  | c0 :: rest0 =>
    if c0 = '0' && !rest0.isEmpty then none
    else
      let fr := fracPart r1
      let ex := expPart fr.2
      let mag : ℚ := ((natOfDigits ip : ℚ) + fr.1) * (10 : ℚ) ^ ex.1
      some (if sp.1 then -mag else mag, ex.2)

mutual

/-- Fuel-indexed JSON value reader. -/
def parseValF : ℕ → List Char → Option (JVal × List Char)
  | 0, _ => none
  | n + 1, input =>
    match skipJWs input with
    | [] => none
    | c :: r =>
      if c = qq then
        (parseStrBody r).map (fun p => (JVal.jstr (String.mk p.1), p.2))
      else if c = '{' then
        match skipJWs r with
        | c2 :: r2 =>
          if c2 = '}' then some (JVal.jobj [], r2)
          else (parseMembersF n r).map (fun p => (JVal.jobj p.1, p.2))
        | [] => none
      else if c = '[' then
        match skipJWs r with
        | c2 :: r2 =>
          if c2 = ']' then some (JVal.jarr [], r2)
          else (parseItemsF n r).map (fun p => (JVal.jarr p.1, p.2))
        | [] => none
      else if c = 'n' then
        if ['u', 'l', 'l'].isPrefixOf r then some (JVal.jnull, r.drop 3) else none
      else if c = 't' then
        if ['r', 'u', 'e'].isPrefixOf r then some (JVal.jbool true, r.drop 3) else none
      else if c = 'f' then
        if ['a', 'l', 's', 'e'].isPrefixOf r then some (JVal.jbool false, r.drop 4) else none
      else
        (parseNumber (c :: r)).map (fun p => (JVal.jnum p.1, p.2))

/-- Fuel-indexed reader of a non-empty comma-separated item list up to `]`. -/
def parseItemsF : ℕ → List Char → Option (List JVal × List Char)
  | 0, _ => none
  | n + 1, l =>
    match parseValF n l with
    | none => none
    | some (v, r1) =>
      match skipJWs r1 with
      | c :: r2 =>
        if c = ',' then (parseItemsF n r2).map (fun p => (v :: p.1, p.2))
        else if c = ']' then some ([v], r2)
        else none
      | [] => none

/-- Fuel-indexed reader of a non-empty object member list up to `}`. -/
def parseMembersF : ℕ → List Char → Option (List (String × JVal) × List Char)
  | 0, _ => none
  | n + 1, l =>
    match skipJWs l with
    | [] => none
    | c :: r =>
      if c = qq then
        match parseStrBody r with
        | none => none
        | some (k, r1) =>
          match skipJWs r1 with
          | c2 :: r2 =>
            if c2 = ':' then
              match parseValF n r2 with
              | none => none
              | some (v, r3) =>
                match skipJWs r3 with
                | c3 :: r4 =>
                  if c3 = ',' then
                    (parseMembersF n r4).map (fun p => ((String.mk k, v) :: p.1, p.2))
                  else if c3 = '}' then some ([(String.mk k, v)], r4)
                  else none
                | [] => none
            else none
          | [] => none
      else none

end

/-- Model of `json.loads` on a character list: parse one value and require
    that only whitespace remains (`Extra data` otherwise). -/
def jsonLoadsChars (l : List Char) : Option JVal :=
  match parseValF (l.length + 2) l with
  | some (v, rest) => if skipJWs rest = [] then some v else none
  | none => none

/-! ### The two-level regex extraction of `StockRater.rate_stock`
    (`rater.py` lines 156-167) -/

/-- The three-backquote fence. -/
def fenceChars : List Char := [bq, bq, bq]

/-- Does `\s*` followed by a closing fence start here?  (The lookahead used to
    decide where the non-greedy `\{.*?\}` of the fenced-block regex stops.) -/
def wsFence (l : List Char) : Bool := fenceChars.isPrefixOf (l.dropWhile isPyWs)

/-- Scan the object body of the fenced-block regex: the capture extends to the
    first `}` that is followed by `\s*` and a closing fence (non-greedy `.*?`
    with `re.DOTALL`). -/
def scanBody : List Char → Option (List Char)
  | [] => none
  | c :: rest =>
    if c = '}' && wsFence rest then some ['}']
    else (scanBody rest).map (fun b => c :: b)

/-- The characters of the optional `json` tag after the opening fence. -/
def tagChars : List Char := ['j', 's', 'o', 'n']

/-- Attempt the fenced-block pattern at the head of the input:
    ``` optionally followed by `json`, then `\s*`, then the non-greedy
    braced capture, then `\s*` and a closing ```. -/
def matchFencedAt (l : List Char) : Option (List Char) :=
  if fenceChars.isPrefixOf l then
    let r := l.drop 3
    let r1 := if tagChars.isPrefixOf r then r.drop 4 else r
    match r1.dropWhile isPyWs with
    | c :: body => if c = '{' then (scanBody body).map (fun b => '{' :: b) else none
    | [] => none
  else none

/-- Leftmost search for the fenced-block pattern, as `re.search` does. -/
def searchFenced : List Char → Option (List Char)
  | [] => none
  | c :: rest =>
    match matchFencedAt (c :: rest) with
    | some cap => some cap
    | none => searchFenced rest

/-- The direct pattern `\{.*\}` with `re.DOTALL`: leftmost `{`, greedy to the
    last `}` of the input. -/
def directExtract (l : List Char) : Option (List Char) :=
  match l.dropWhile (fun c => c != '{') with
  | [] => none
  | c :: rest =>
    let r := rest.reverse.dropWhile (fun d => d != '}')
    if r = [] then none else some (c :: r.reverse)

/-- The combined extraction order of `rate_stock`: fenced block first, then
    the direct braced substring. -/
def extractJson (l : List Char) : Option (List Char) :=
  match searchFenced l with
  | some cap => some cap
  | none => directExtract l

/-! ### Field extraction from the parsed object (`rater.py` lines 178-185)

The `RatingResult(...)` construction reads the six dict entries in source
order; a missing key raises `KeyError`, an invalid rating string raises
`ValueError`, and a non-convertible confidence raises `TypeError`/`ValueError`
-- all of which escape to the outer `except` of `rate_stock`.  Exceptions are
modelled by `Except String` carrying `str(e)`. -/

/-- The apostrophe character (used by Python `repr` of strings). -/
def sQuote : Char := Char.ofNat 39

/-- Python `repr` of a simple string without embedded quotes. -/
def quoted1 (s : String) : String := String.mk (sQuote :: s.data ++ [sQuote])

/-- Python dict lookup built from parsed JSON members: duplicate keys are
    last-wins, as in `json.loads`. -/
def objFind (kvs : List (String × JVal)) (k : String) : Option JVal :=
  (kvs.reverse.find? (fun p => p.1 == k)).map Prod.snd

/-- Dict subscript: `KeyError` carries `repr(key)` as its `str()`. -/
def objGet (kvs : List (String × JVal)) (k : String) : Except String JVal :=
  match objFind kvs k with
  | some v => Except.ok v
  | none => Except.error (quoted1 k)

/-- Python `repr` of a JSON-decoded value, used in `ValueError` texts.  Exact
    for strings, booleans and `None` (the only cases any theorem relies on);
    numbers and containers are best-effort renderings. -/
def jRepr : JVal → String
  | .jnull => "None"
  | .jbool b => if b then "True" else "False"
  | .jnum q => if q.den = 1 then toString q.num else toString q
  | .jstr s => quoted1 s
  | .jarr _ => "[...]"
  | .jobj _ => "\x7b...\x7d"

/-- `Rating(value)`: the enum constructor raises
    `ValueError: <repr> is not a valid Rating` off the five value strings. -/
def ratingOfJVal (v : JVal) : Except String Rating :=
  match v with
  | .jstr s =>
    match Rating.fromValue s with
    | some r => Except.ok r
    | none => Except.error (jRepr v ++ " is not a valid Rating")
  | _ => Except.error (jRepr v ++ " is not a valid Rating")

/-- Python `float()` applied to a JSON-decoded value. -/
def pyFloat (v : JVal) : Except String ℚ :=
  match v with
  | .jnum q => Except.ok q
  | .jbool b => Except.ok (if b then 1 else 0)
  | .jstr s =>
    match parseNumber (stripList s.data) with
    | some (q, rest) =>
      if rest = [] then Except.ok q
      else Except.error ("could not convert string to float: " ++ quoted1 s)
    | none => Except.error ("could not convert string to float: " ++ quoted1 s)
  | .jnull => Except.error "float() argument must be a string or a real number, not 'NoneType'"
  | .jarr _ => Except.error "float() argument must be a string or a real number, not 'list'"
  | .jobj _ => Except.error "float() argument must be a string or a real number, not 'dict'"

/-- A dict value stored into a string-typed field.  Python's dataclass does
    not check types, so a non-string value is stored as-is; this embedding
    normalises it to its repr text (no claim exercises that case). -/
def jvalAsStr (v : JVal) : String :=
  match v with
  | .jstr s => s
  | _ => jRepr v

/-- A dict value stored into a list-of-strings field; normalised likewise. -/
def jvalAsStrList (v : JVal) : List String :=
  match v with
  | .jarr xs => xs.map jvalAsStr
  | _ => [jRepr v]

/-- The `RatingResult(...)` construction from the parsed dict, evaluating the
    six fields in source order and surfacing the first exception. -/
def buildRatingResult (v : JVal) : Except String RatingResult :=
  match v with
  | .jobj kvs =>
    match objGet kvs "rating" with
    | .error e => .error e
    | .ok rv =>
      match ratingOfJVal rv with
      | .error e => .error e
      | .ok rating =>
        match objGet kvs "confidence" with
        | .error e => .error e
        | .ok cv =>
          match pyFloat cv with
          | .error e => .error e
          | .ok confidence =>
            match objGet kvs "reasoning" with
            | .error e => .error e
            | .ok rs =>
              match objGet kvs "key_factors" with
              | .error e => .error e
              | .ok kf =>
                match objGet kvs "risk_factors" with
                | .error e => .error e
                | .ok rf =>
                  match objGet kvs "recommendation_summary" with
                  | .error e => .error e
                  | .ok sm =>
                    .ok
                      { rating := rating
                        confidence := confidence
                        reasoning := jvalAsStr rs
                        key_factors := jvalAsStrList kf
                        risk_factors := jvalAsStrList rf
                        recommendation_summary := jvalAsStr sm }
  | _ => Except.error "string indices must be integers"

namespace StockRater

/-- `_create_fallback_rating`: the Level-4 parse fallback (`rater.py` 194-204). -/
def create_fallback_rating (_company_name : String) (response_text : String) : RatingResult :=
  { rating := Rating.HOLD
    confidence := 1 / 2
    reasoning := "Unable to parse AI response. Raw response: " ++ response_text.take 200 ++ "..."
    key_factors := ["Analysis incomplete due to parsing error"]
    risk_factors := ["Unable to complete full analysis"]
    recommendation_summary := "Hold recommendation due to analysis limitations." }

/-- `_create_error_rating`: the error verdict for exceptions (`rater.py` 206-216). -/
def create_error_rating (_company_name : String) (error_message : String) : RatingResult :=
  { rating := Rating.HOLD
    confidence := 0
    reasoning := "Analysis failed with error: " ++ error_message
    key_factors := ["Analysis could not be completed"]
    risk_factors := ["Unable to assess risks due to analysis failure"]
    recommendation_summary := "Unable to provide recommendation due to analysis error." }

/-- `StockRater.rate_stock` (`rater.py` 110-192).  The prompt construction and
    the `ChatOpenAI` call are the only effectful steps; their combined outcome
    is the oracle `llm` (`Except.error e` when either raises, `Except.ok`
    carrying `response.content` otherwise).  The reply is stripped, a JSON
    substring is extracted (fenced block first, then the direct `\{.*\}`
    pattern), decoded, and turned into a `RatingResult`; a decode failure
    yields the parse fallback, any other exception the error verdict. -/
def rate_stock (llm : Except String String) (company_name : String) : RatingResult :=
  match llm with
  | Except.error e => create_error_rating company_name e
  | Except.ok raw =>
    let response_text : String := String.mk (stripList raw.data)
    match extractJson response_text.data with
    | none => create_fallback_rating company_name response_text
    | some cap =>
      match jsonLoadsChars cap with
      | none => create_fallback_rating company_name response_text
      | some v =>
        match buildRatingResult v with
        | Except.ok r => r
        | Except.error e => create_error_rating company_name e

end StockRater

/-! ### The analysis orchestrator (`src/pipelines/pipelines.py`)

`analyze_stock` sequences three guarded stages.  The effectful collaborators
are gathered into `StageOracles`; `_get_financial_data`, `_get_sentiment_analysis`
and `_generate_rating` re-raise any stage exception, which the `try` of
`analyze_stock` converts into a failure record.  The two `datetime.now()`
reads are the parameters `tStart`/`tEnd` (so `processing_time_seconds` is
their difference on every path) and the `isoformat()` timestamp is the
parameter `analysis_date`.  The rating stage itself cannot raise in this
embedding because `rate_stock` is total (its own `except` returns a verdict,
see the C7 theorem). -/

/-- Data class `StockAnalysisResult` (`pipelines.py` 28-39). -/
structure StockAnalysisResult where
  stock_symbol : String
  analysis_date : String
  financial_data_html : String
  company_sentiment : String
  sector_sentiment : String
  rating_result : RatingResult
  processing_time_seconds : ℚ
  success : Bool
  error_message : Option String
deriving DecidableEq, Repr

/-- The effectful collaborators of one pipeline run:
    `from_stock_to_dataframe`, `get_stock_sentiment`, and the LLM behind
    `rate_stock` (given the three stage outputs and the company name). -/
structure StageOracles where
  fund : String → Except String String
  sent : String → Except String (String × String)
  rateLlm : String → String → String → String → Except String String

namespace StockAnalysisPipeline

/-- `_create_error_rating_result` (`pipelines.py` 183-194). -/
def create_error_rating_result : RatingResult :=
  { rating := Rating.HOLD
    confidence := 0
    reasoning := "Analysis failed - unable to complete rating"
    key_factors := ["Analysis could not be completed"]
    risk_factors := ["Unable to assess risks due to analysis failure"]
    recommendation_summary := "Unable to provide recommendation due to analysis error." }

/-- The failure record built by the `except` arm of `analyze_stock`
    (`pipelines.py` 125-139). -/
def errorRecord (stock_symbol analysis_date : String) (tStart tEnd : ℚ)
    (e : String) : StockAnalysisResult :=
  { stock_symbol := pyUpper stock_symbol
    analysis_date := analysis_date
    financial_data_html := ""
    company_sentiment := ""
    sector_sentiment := ""
    rating_result := create_error_rating_result
    processing_time_seconds := tEnd - tStart
    success := false
    error_message := some e }

/-- `StockAnalysisPipeline.analyze_stock` (`pipelines.py` 71-139): run the
    three stages in order on the original-casing symbol, catch any stage
    exception at the boundary, and record the upper-cased symbol either way. -/
def analyze_stock (o : StageOracles) (tStart tEnd : ℚ) (analysis_date : String)
    (stock_symbol : String) : StockAnalysisResult :=
  match o.fund stock_symbol with
  | Except.error e => errorRecord stock_symbol analysis_date tStart tEnd e
  | Except.ok financial_data_html =>
    match o.sent stock_symbol with
    | Except.error e => errorRecord stock_symbol analysis_date tStart tEnd e
    | Except.ok (company_sentiment, sector_sentiment) =>
      let rating_result := StockRater.rate_stock
        (o.rateLlm financial_data_html company_sentiment sector_sentiment stock_symbol)
        stock_symbol
      { stock_symbol := pyUpper stock_symbol
        analysis_date := analysis_date
        financial_data_html := financial_data_html
        company_sentiment := company_sentiment
        sector_sentiment := sector_sentiment
        rating_result := rating_result
        processing_time_seconds := tEnd - tStart
        success := true
        error_message := none }

/-- `batch_analyze_stocks` (`pipelines.py` 196-221): a plain fold over the
    input symbols appending one record per symbol; the loop body never raises
    because `analyze_stock` is total. -/
def batch_analyze_stocks (o : StageOracles) (tStart tEnd : ℚ) (analysis_date : String)
    (stock_symbols : List String) : List StockAnalysisResult :=
  stock_symbols.map (analyze_stock o tStart tEnd analysis_date)

/-! #### Aggregate report statistics (`create_analysis_report`, `pipelines.py`
    440-520).  The report-string assembly is pure formatting; the statistics
    it interpolates are computed at lines 454-465 and 482-484 and are embedded
    here under their source-local names. -/

/-- `successful_results = [r for r in results if r.success]`. -/
def successful_results (results : List StockAnalysisResult) : List StockAnalysisResult :=
  results.filter (fun r => r.success)

/-- `total_processing_time = sum(r.processing_time_seconds for r in results)`. -/
def total_processing_time (results : List StockAnalysisResult) : ℚ :=
  (results.map (fun r => r.processing_time_seconds)).sum

/-- `avg_confidence = sum(...) / len(successful_results) if successful_results else 0`. -/
def avg_confidence (results : List StockAnalysisResult) : ℚ :=
  if successful_results results = [] then 0
  else ((successful_results results).map (fun r => r.rating_result.confidence)).sum
    / ((successful_results results).length : ℚ)

/-- One step of the dict update `rating_counts[rating] = rating_counts.get(rating, 0) + 1`
    (insertion-ordered, as a Python dict). -/
def bumpCount : List (String × ℕ) → String → List (String × ℕ)
  | [], k => [(k, 1)]
  | (k0, n) :: t, k => if k0 = k then (k0, n + 1) :: t else (k0, n) :: bumpCount t k

/-- The `rating_counts` histogram over successful results (`pipelines.py` 462-465). -/
def rating_counts (results : List StockAnalysisResult) : List (String × ℕ) :=
  (successful_results results).foldl
    (fun acc r => bumpCount acc r.rating_result.rating.value) []

/-- The percentage printed for one histogram entry
    (`(count / len(successful_results)) * 100`, `pipelines.py` 483). -/
def rating_percentage (results : List StockAnalysisResult) (count : ℕ) : ℚ :=
  ((count : ℚ) / ((successful_results results).length : ℚ)) * 100

end StockAnalysisPipeline

/-! ### The sentiment collator (`src/news_sentiment/news_collator.py`)

Only the summarisation and scoring coordination of claims C8 is embedded:
`summarize_article`, `summarize_all_articles`, `analyze_sentiment` and
`get_stock_sentiment`.  The news search is an input (the collected article
list); the summarisation and scoring LLM calls are oracles. -/

/-- Data class `NewsArticle` (`news_collator.py` 27-38); the float score is
    modelled by `ℚ`. -/
structure NewsArticle where
  title : String
  url : String
  published_date : Option String
  content : String
  summary : Option String
  sentiment : Option String
  sentiment_score : Option ℚ
  search_query : Option String
  collected_at : Option String
deriving DecidableEq, Repr

/-- The value `summarize_article` actually returns: the mutated `NewsArticle`
    object on success, a plain string on the empty-content and exception
    paths (the annotated return type `-> str` notwithstanding). -/
inductive SummarizeReturn
  | art (a : NewsArticle)
  | txt (s : String)
deriving DecidableEq, Repr

namespace SentimentCollator

/-- `summarize_article` (`news_collator.py` 203-240): empty content returns a
    placeholder string; a successful LLM call stores the stripped summary on
    the article and returns the article object; an exception returns an
    explanatory string. -/
def summarize_article (summarizer : String → String → Except String String)
    (article : NewsArticle) : SummarizeReturn :=
  if article.content = "" then SummarizeReturn.txt "No content available for summarization."
  else
    match summarizer article.title article.content with
    | Except.ok s => SummarizeReturn.art { article with summary := some (pyStrip s) }
    | Except.error e => SummarizeReturn.txt ("Error generating summary: " ++ e)

/-- `summarize_all_articles` (`news_collator.py` 242-248): an independent
    per-article comprehension. -/
def summarize_all_articles (summarizer : String → String → Except String String)
    (articles : List NewsArticle) : List SummarizeReturn :=
  articles.map (summarize_article summarizer)

/-- Python `repr` of an `Optional[str]` field. -/
def reprOptStr : Option String → String
  | none => "None"
  | some s => quoted1 s

/-- Python `repr` of a `NewsArticle` dataclass instance (the form interpolated
    when a list containing it is formatted into an f-string). -/
def articleRepr (a : NewsArticle) : String :=
  "NewsArticle(title=" ++ quoted1 a.title ++ ", url=" ++ quoted1 a.url
    ++ ", published_date=" ++ reprOptStr a.published_date
    ++ ", content=" ++ quoted1 a.content
    ++ ", summary=" ++ reprOptStr a.summary
    ++ ", sentiment=" ++ reprOptStr a.sentiment
    ++ ", sentiment_score=" ++ (match a.sentiment_score with
        | none => "None"
        | some q => toString q)
    ++ ", search_query=" ++ reprOptStr a.search_query
    ++ ", collected_at=" ++ reprOptStr a.collected_at ++ ")"

/-- Python `repr` of one element of the `summaries` list. -/
def summaryItemRepr : SummarizeReturn → String
  | SummarizeReturn.art a => articleRepr a
  | SummarizeReturn.txt s => quoted1 s

/-- Python `str` of the `summaries` list, as produced by interpolating the
    list itself into the prompt f-string. -/
def summariesStr (summaries : List SummarizeReturn) : String :=
  "[" ++ String.intercalate ", " (summaries.map summaryItemRepr) ++ "]"

/-- The user prompt of `analyze_sentiment` in company mode
    (`news_collator.py` 266): the raw list is interpolated, not a
    concatenated corpus of summary texts. -/
def company_user_prompt (summaries : List SummarizeReturn) (target_name : String) : String :=
  "Company Name: " ++ target_name ++ "\nSummary: " ++ summariesStr summaries

/-- The user prompt of `analyze_sentiment` in sector mode (`news_collator.py` 270). -/
def sector_user_prompt (summaries : List SummarizeReturn) (target_name : String) : String :=
  "Sector: " ++ target_name ++ "\nSummaries list: " ++ summariesStr summaries

/-- `analyze_sentiment` (`news_collator.py` 250-292).  `scorer` is the LLM
    oracle, applied to the mode and the composed user prompt; every exception
    (including the `ValueError` for an unknown mode) is caught and replaced by
    the fixed error text, and the mode is echoed back. -/
def analyze_sentiment (scorer : String → String → Except String String)
    (summaries : List SummarizeReturn) (mode : String) (target_name : String) :
    String × String :=
  if mode = "company" then
    match scorer mode (company_user_prompt summaries target_name) with
    | Except.ok resp => (pyStrip resp, mode)
    | Except.error _ => ("Error analyzing sentiment", mode)
  else if mode = "sector" then
    match scorer mode (sector_user_prompt summaries target_name) with
    | Except.ok resp => (pyStrip resp, mode)
    | Except.error _ => ("Error analyzing sentiment", mode)
  else ("Error analyzing sentiment", mode)

/-- `get_stock_sentiment` (`news_collator.py` 294-307) given the collected
    articles: summarise each article, then score the same `summaries` value
    twice, in company mode and in sector mode, both targeting the company
    name, and return the two raw texts. -/
def get_stock_sentiment (summarizer : String → String → Except String String)
    (scorer : String → String → Except String String)
    (articles : List NewsArticle) (company_name : String) : String × String :=
  let summaries := summarize_all_articles summarizer articles
  let company_sentiment := (analyze_sentiment scorer summaries "company" company_name).1
  let sector_sentiment := (analyze_sentiment scorer summaries "sector" company_name).1
  (company_sentiment, sector_sentiment)

end SentimentCollator

/-! ### Well-formed rating replies (the input space of claim C5)

A well-formed structured reply is serialised from explicit field data: the
rating as its enumeration string, the confidence as literal decimal digits,
and the text fields as strings of plain characters (no quote, backslash,
brace, backquote or control character, so that the reply needs no string
escapes and the regex extraction is unambiguous). -/

/-- The character of a decimal digit. -/
def digitChar (d : ℕ) : Char := Char.ofNat (48 + d)

/-- Base-10 value of a digit list. -/
def digitsVal (ds : List ℕ) : ℕ := ds.foldl (fun a d => 10 * a + d) 0

/-- A plain character: printable, and none of the delimiters that would
    require escaping or disturb the brace/fence scanning. -/
def goodChar (c : Char) : Prop :=
  32 ≤ c.toNat ∧ c ≠ qq ∧ c ≠ bsl ∧ c ≠ '{' ∧ c ≠ '}' ∧ c ≠ bq

instance (c : Char) : Decidable (goodChar c) := by
  unfold goodChar; infer_instance

/-- A string of plain characters. -/
def goodStr (s : String) : Prop := ∀ c ∈ s.data, goodChar c

instance (s : String) : Decidable (goodStr s) := by
  unfold goodStr; infer_instance

/-- Digit-list well-formedness for the serialised integer part: non-empty,
    digits below 10, no leading zero (JSON's number grammar). -/
def digitsOk (ds : List ℕ) : Prop :=
  ds ≠ [] ∧ (∀ d ∈ ds, d < 10) ∧ (ds.head? = some 0 → ds = [0])

instance (ds : List ℕ) : Decidable (digitsOk ds) := by
  unfold digitsOk; infer_instance

/-- The field data of a well-formed structured rating reply. -/
structure ReplyFields where
  rating : Rating
  confWhole : List ℕ
  confFrac : List ℕ
  reasoning : String
  key_factors : List String
  risk_factors : List String
  recommendation_summary : String

/-- Well-formedness of the field data. -/
def ReplyFields.WF (f : ReplyFields) : Prop :=
  digitsOk f.confWhole ∧ (∀ d ∈ f.confFrac, d < 10)
    ∧ goodStr f.reasoning
    ∧ (∀ s ∈ f.key_factors, goodStr s)
    ∧ (∀ s ∈ f.risk_factors, goodStr s)
    ∧ goodStr f.recommendation_summary

instance (f : ReplyFields) : Decidable f.WF := by
  unfold ReplyFields.WF; infer_instance

/-- The numeric value denoted by the serialised confidence digits. -/
def ReplyFields.confVal (f : ReplyFields) : ℚ :=
  (digitsVal f.confWhole : ℚ) + (digitsVal f.confFrac : ℚ) / (10 : ℚ) ^ f.confFrac.length

/-- A JSON string literal for plain content. -/
def quoteItem (s : String) : List Char := qq :: s.data ++ [qq]

/-- The comma-separated string literals of a JSON array body. -/
def itemsChars : List String → List Char
  | [] => []
  | [x] => quoteItem x
  | x :: y :: t => quoteItem x ++ ',' :: ' ' :: itemsChars (y :: t)

/-- A serialised object key with its colon-space separator, prefixed to the
    rest of the member stream. -/
def keyChunk (k : String) (X : List Char) : List Char :=
  qq :: (k.data ++ qq :: ':' :: ' ' :: X)

/-- The serialised confidence digits. -/
def numChars (f : ReplyFields) : List Char :=
  f.confWhole.map digitChar
    ++ (if f.confFrac = [] then [] else '.' :: f.confFrac.map digitChar)

/-- The member stream of the serialised reply object (after the opening
    brace, before the closing brace). -/
def membersBody (f : ReplyFields) : List Char :=
  keyChunk "rating" (quoteItem f.rating.value ++ ',' :: ' ' ::
    keyChunk "confidence" (numChars f ++ ',' :: ' ' ::
      keyChunk "reasoning" (quoteItem f.reasoning ++ ',' :: ' ' ::
        keyChunk "key_factors" ('[' :: itemsChars f.key_factors ++ ']' :: ',' :: ' ' ::
          keyChunk "risk_factors" ('[' :: itemsChars f.risk_factors ++ ']' :: ',' :: ' ' ::
            keyChunk "recommendation_summary"
              (quoteItem f.recommendation_summary))))))

/-- The full serialised reply object. -/
def jsonChars (f : ReplyFields) : List Char := '{' :: membersBody f ++ ['}']

/-- The JSON value the serialised reply decodes to. -/
def expectedJson (f : ReplyFields) : JVal :=
  JVal.jobj
    [("rating", JVal.jstr f.rating.value),
     ("confidence", JVal.jnum f.confVal),
     ("reasoning", JVal.jstr f.reasoning),
     ("key_factors", JVal.jarr (f.key_factors.map JVal.jstr)),
     ("risk_factors", JVal.jarr (f.risk_factors.map JVal.jstr)),
     ("recommendation_summary", JVal.jstr f.recommendation_summary)]

/-- The verdict carrying every reply field verbatim. -/
def expectedVerdict (f : ReplyFields) : RatingResult :=
  { rating := f.rating
    confidence := f.confVal
    reasoning := f.reasoning
    key_factors := f.key_factors
    risk_factors := f.risk_factors
    recommendation_summary := f.recommendation_summary }

/-- A string free of backquotes (safe surrounding prose for a fenced block). -/
def noBq (s : String) : Prop := ∀ c ∈ s.data, c ≠ bq

instance (s : String) : Decidable (noBq s) := by
  unfold noBq; infer_instance

/-- A well-formed reply wrapped in a fenced `json` code block with
    surrounding prose. -/
def fencedReply (p1 : String) (f : ReplyFields) (p2 : String) : List Char :=
  p1.data ++ fenceChars ++ tagChars ++ '\n' :: jsonChars f
    ++ '\n' :: fenceChars ++ p2.data

/-! ### Concrete fixtures used by witnesses and counterexamples -/

/-- Oracles whose fundamentals stage raises. -/
def oracleFundFail : StageOracles :=
  { fund := fun _ => Except.error "fund down"
    sent := fun _ => Except.ok ("c+", "s+")
    rateLlm := fun _ _ _ _ => Except.ok "no json here" }

/-- Oracles whose sentiment stage raises. -/
def oracleSentFail : StageOracles :=
  { fund := fun _ => Except.ok "<table/>"
    sent := fun _ => Except.error "sentiment down"
    rateLlm := fun _ _ _ _ => Except.ok "no json here" }

/-- Oracles whose stages succeed but whose rating-model call raises. -/
def oracleLlmFail : StageOracles :=
  { fund := fun _ => Except.ok "<table/>"
    sent := fun _ => Except.ok ("c+", "s-")
    rateLlm := fun _ _ _ _ => Except.error "llm down" }

/-- A reply whose extracted object parses but lacks the `rating` key. -/
def missingRatingReply : String := "\x7b\"confidence\": 0.7\x7d"

/-- A reply of pure prose with no parseable object. -/
def proseReply : String := "The outlook is stable and there is nothing structured here."

/-- The list of required reply fields, in the order `rate_stock` reads them. -/
def requiredKeys : List String :=
  ["rating", "confidence", "reasoning", "key_factors", "risk_factors",
   "recommendation_summary"]

/-- Key lookup through the optional extraction pipeline (for stating the C4
    counterexample without equality on `JVal`). -/
def jFindKey (k : String) (o : Option JVal) : Option JVal :=
  o.bind fun v =>
    match v with
    | JVal.jobj kvs => objFind kvs k
    | _ => none

/-- A failed analysis record (all-failed batches for the C9 counterexample). -/
def failedRec : StockAnalysisResult :=
  { stock_symbol := "AAA"
    analysis_date := "d"
    financial_data_html := ""
    company_sentiment := ""
    sector_sentiment := ""
    rating_result := StockAnalysisPipeline.create_error_rating_result
    processing_time_seconds := 2
    success := false
    error_message := some "fund down" }

/-- A successful record with the given rating and confidence. -/
def okRec (r : Rating) (conf : ℚ) : StockAnalysisResult :=
  { stock_symbol := "AAA"
    analysis_date := "d"
    financial_data_html := "<t/>"
    company_sentiment := "c"
    sector_sentiment := "s"
    rating_result :=
      { rating := r
        confidence := conf
        reasoning := "r"
        key_factors := []
        risk_factors := []
        recommendation_summary := "s" }
    processing_time_seconds := 1
    success := true
    error_message := none }

/-- Three successful records with confidences 0.6, 0.8 and 1.0. -/
def demoRecords : List StockAnalysisResult :=
  [okRec Rating.BUY (3 / 5), okRec Rating.HOLD (4 / 5), okRec Rating.BUY 1]

/-- A sample collected article with non-empty content. -/
def sampleArticle : NewsArticle :=
  { title := "T"
    url := "U"
    published_date := none
    content := "X"
    summary := none
    sentiment := none
    sentiment_score := none
    search_query := none
    collected_at := none }

/-- A sample well-formed reply. -/
def sampleF : ReplyFields :=
  { rating := Rating.BUY
    confWhole := [0]
    confFrac := [8, 5]
    reasoning := "Solid growth"
    key_factors := ["earnings", "margins"]
    risk_factors := ["rates"]
    recommendation_summary := "Buy on dips" }


/-- The member stream from the sixth serialised member on (with the closing
    brace). -/
def stream6 (f : ReplyFields) : List Char :=
  keyChunk "recommendation_summary" (quoteItem f.recommendation_summary ++ ['}'])

/-- The member stream from the fifth serialised member on. -/
def stream5 (f : ReplyFields) : List Char :=
  keyChunk "risk_factors"
    ('[' :: itemsChars f.risk_factors ++ ']' :: ',' :: ' ' :: stream6 f)

/-- The member stream from the fourth serialised member on. -/
def stream4 (f : ReplyFields) : List Char :=
  keyChunk "key_factors"
    ('[' :: itemsChars f.key_factors ++ ']' :: ',' :: ' ' :: stream5 f)

/-- The member stream from the third serialised member on. -/
def stream3 (f : ReplyFields) : List Char :=
  keyChunk "reasoning" (quoteItem f.reasoning ++ ',' :: ' ' :: stream4 f)

/-- The member stream from the second serialised member on. -/
def stream2 (f : ReplyFields) : List Char :=
  keyChunk "confidence" (numChars f ++ ',' :: ' ' :: stream3 f)

/-- The full member stream of the serialised reply. -/
def stream1 (f : ReplyFields) : List Char :=
  keyChunk "rating" (quoteItem f.rating.value ++ ',' :: ' ' :: stream2 f)

/-! ### Shared lemmas -/

/-- Every `Rating` value is one of the five enumerated members. -/
theorem mem_fiveRatings (r : Rating) : r ∈ fiveRatings := by
  cases r <;> simp [fiveRatings]

/-- `rate_stock` either returns a `HOLD`-rated degraded verdict or the
    verdict built from a successfully extracted and decoded object. -/
theorem rate_stock_rating_cases (llm : Except String String) (name : String) :
    (StockRater.rate_stock llm name).rating = Rating.HOLD
      ∨ ∃ raw cap v r, llm = Except.ok raw
          ∧ extractJson (stripList raw.data) = some cap
          ∧ jsonLoadsChars cap = some v
          ∧ buildRatingResult v = Except.ok r
          ∧ StockRater.rate_stock llm name = r := by
  cases llm with
  | error e => exact Or.inl rfl
  | ok raw =>
    simp only [StockRater.rate_stock]
    split
    · exact Or.inl rfl
    · rename_i cap hx
      split
      · exact Or.inl rfl
      · rename_i v hj
        split
        · rename_i r hb
          exact Or.inr ⟨raw, cap, v, r, rfl, hx, hj, hb, rfl⟩
        · exact Or.inl rfl

/-- When no object can be extracted and decoded, `rate_stock` returns the
    parse fallback. -/
theorem rate_stock_extract_fail {raw name : String}
    (h : (extractJson (stripList raw.data)).bind jsonLoadsChars = none) :
    StockRater.rate_stock (Except.ok raw) name
      = StockRater.create_fallback_rating name (String.mk (stripList raw.data)) := by
  simp only [StockRater.rate_stock]
  split
  · rfl
  · rename_i cap hx
    rw [hx] at h
    simp only [Option.some_bind] at h
    split
    · rfl
    · rename_i v hj
      rw [hj] at h
      exact absurd h (by simp)

/-- When the decoded object fails to build a `RatingResult`, `rate_stock`
    returns the error verdict carrying the exception text. -/
theorem rate_stock_build_err {raw name : String} {cap : List Char} {v : JVal} {e : String}
    (hx : extractJson (stripList raw.data) = some cap)
    (hj : jsonLoadsChars cap = some v)
    (hb : buildRatingResult v = Except.error e) :
    StockRater.rate_stock (Except.ok raw) name
      = StockRater.create_error_rating name e := by
  simp only [StockRater.rate_stock]
  split
  · rename_i h1
    rw [h1] at hx
    exact Option.noConfusion hx
  · rename_i cap2 h1
    rw [h1] at hx
    injection hx with hcap
    subst hcap
    split
    · rename_i h2
      rw [h2] at hj
      exact Option.noConfusion hj
    · rename_i v2 h2
      rw [h2] at hj
      injection hj with hv
      subst hv
      split
      · rename_i r hb2
        rw [hb2] at hb
        exact Except.noConfusion hb
      · rename_i e2 hb2
        rw [hb2] at hb
        exact congrArg (StockRater.create_error_rating name) (Except.error.inj hb)

/-- When the decoded object builds a `RatingResult`, `rate_stock` returns it. -/
theorem rate_stock_build_ok {raw name : String} {cap : List Char} {v : JVal}
    {r : RatingResult}
    (hx : extractJson (stripList raw.data) = some cap)
    (hj : jsonLoadsChars cap = some v)
    (hb : buildRatingResult v = Except.ok r) :
    StockRater.rate_stock (Except.ok raw) name = r := by
  simp only [StockRater.rate_stock]
  split
  · rename_i h1
    rw [h1] at hx
    exact Option.noConfusion hx
  · rename_i cap2 h1
    rw [h1] at hx
    injection hx with hcap
    subst hcap
    split
    · rename_i h2
      rw [h2] at hj
      exact Option.noConfusion hj
    · rename_i v2 h2
      rw [h2] at hj
      injection hj with hv
      subst hv
      split
      · rename_i r2 hb2
        rw [hb2] at hb
        exact Except.ok.inj hb
      · rename_i e2 hb2
        rw [hb2] at hb
        exact Except.noConfusion hb

/-- A fundamentals-stage failure yields the failure record. -/
theorem analyze_fund_err {o : StageOracles} {tS tE : ℚ} {d s e : String}
    (he : o.fund s = Except.error e) :
    StockAnalysisPipeline.analyze_stock o tS tE d s
      = StockAnalysisPipeline.errorRecord s d tS tE e := by
  simp only [StockAnalysisPipeline.analyze_stock]
  rw [he]

/-- A sentiment-stage failure yields the failure record. -/
theorem analyze_sent_err {o : StageOracles} {tS tE : ℚ} {d s fin e : String}
    (hf : o.fund s = Except.ok fin) (hs : o.sent s = Except.error e) :
    StockAnalysisPipeline.analyze_stock o tS tE d s
      = StockAnalysisPipeline.errorRecord s d tS tE e := by
  simp only [StockAnalysisPipeline.analyze_stock]
  rw [hf, hs]

/-- Two successful stages yield the success record. -/
theorem analyze_ok {o : StageOracles} {tS tE : ℚ} {d s fin cs ss : String}
    (hf : o.fund s = Except.ok fin) (hs : o.sent s = Except.ok (cs, ss)) :
    StockAnalysisPipeline.analyze_stock o tS tE d s
      = { stock_symbol := pyUpper s
          analysis_date := d
          financial_data_html := fin
          company_sentiment := cs
          sector_sentiment := ss
          rating_result := StockRater.rate_stock (o.rateLlm fin cs ss s) s
          processing_time_seconds := tE - tS
          success := true
          error_message := none } := by
  simp only [StockAnalysisPipeline.analyze_stock]
  rw [hf, hs]

/-! ### Claim theorems -/

/-- C7: an exception from the rating-model call itself (modelled as
    `llm = Except.error e`) makes `rate_stock` return the error verdict:
    rating `HOLD`, confidence `0`, reasoning embedding the error text.  The
    engine is a total function of its oracle, so a verdict value is returned
    for every input. -/
theorem C7_model_call_error_yields_error_verdict (company_name e : String) :
    StockRater.rate_stock (Except.error e) company_name
        = StockRater.create_error_rating company_name e
    ∧ (StockRater.rate_stock (Except.error e) company_name).rating = Rating.HOLD
    ∧ (StockRater.rate_stock (Except.error e) company_name).confidence = 0
    ∧ (StockRater.rate_stock (Except.error e) company_name).reasoning
        = "Analysis failed with error: " ++ e :=
  ⟨rfl, rfl, rfl, rfl⟩

/-- C10: the record returned by `analyze_stock` stores the upper-cased
    subject on the success path and on every failure path, while the stages
    themselves (see the definition of `analyze_stock`) are applied to the
    symbol in its original casing. -/
theorem C10_record_symbol_uppercased (o : StageOracles) (tStart tEnd : ℚ)
    (analysis_date stock_symbol : String) :
    (StockAnalysisPipeline.analyze_stock o tStart tEnd analysis_date
        stock_symbol).stock_symbol = pyUpper stock_symbol := by
  unfold StockAnalysisPipeline.analyze_stock
  cases o.fund stock_symbol with
  | error e => rfl
  | ok fin =>
    cases o.sent stock_symbol with
    | error e => rfl
    | ok p => cases p; rfl

/-- C2: a failure of the fundamentals or sentiment stage is caught at the
    orchestrator boundary and yields the failure record (success `false`,
    `error_message` the failure's description, the neutral `HOLD`/`0.0`
    verdict, elapsed time `tEnd - tStart` on every path); when both stages
    succeed the record carries their outputs with success `true`.  The
    rating stage cannot raise in the embedding because `rate_stock` is a
    total function (see C7). -/
theorem C2_orchestrator_isolates_stage_failures (o : StageOracles)
    (tStart tEnd : ℚ) (d s : String) :
    (∀ e, o.fund s = Except.error e →
      StockAnalysisPipeline.analyze_stock o tStart tEnd d s
        = StockAnalysisPipeline.errorRecord s d tStart tEnd e)
    ∧ (∀ fin e, o.fund s = Except.ok fin → o.sent s = Except.error e →
      StockAnalysisPipeline.analyze_stock o tStart tEnd d s
        = StockAnalysisPipeline.errorRecord s d tStart tEnd e)
    ∧ (∀ fin cs ss, o.fund s = Except.ok fin → o.sent s = Except.ok (cs, ss) →
      StockAnalysisPipeline.analyze_stock o tStart tEnd d s
        = { stock_symbol := pyUpper s
            analysis_date := d
            financial_data_html := fin
            company_sentiment := cs
            sector_sentiment := ss
            rating_result := StockRater.rate_stock (o.rateLlm fin cs ss s) s
            processing_time_seconds := tEnd - tStart
            success := true
            error_message := none })
    ∧ (∀ e, (StockAnalysisPipeline.errorRecord s d tStart tEnd e).success = false
        ∧ (StockAnalysisPipeline.errorRecord s d tStart tEnd e).error_message = some e
        ∧ (StockAnalysisPipeline.errorRecord s d tStart tEnd e).rating_result.rating
            = Rating.HOLD
        ∧ (StockAnalysisPipeline.errorRecord s d tStart tEnd e).rating_result.confidence
            = 0
        ∧ (StockAnalysisPipeline.errorRecord s d tStart tEnd
            e).processing_time_seconds = tEnd - tStart) :=
  ⟨fun _ he => analyze_fund_err he,
   fun _ _ hf hs => analyze_sent_err hf hs,
   fun _ _ _ hf hs => analyze_ok hf hs,
   fun _ => ⟨rfl, rfl, rfl, rfl, rfl⟩⟩

/-- Closed instantiation of C2 exercising each implication: a fundamentals
    failure, a sentiment failure, and a fully successful run. -/
theorem C2_orchestrator_isolates_stage_failures_witness :
    StockAnalysisPipeline.analyze_stock oracleFundFail 1 3 "d" "aapl"
        = StockAnalysisPipeline.errorRecord "aapl" "d" 1 3 "fund down"
    ∧ StockAnalysisPipeline.analyze_stock oracleSentFail 0 2 "d" "msft"
        = StockAnalysisPipeline.errorRecord "msft" "d" 0 2 "sentiment down"
    ∧ StockAnalysisPipeline.analyze_stock oracleLlmFail 0 2 "d" "nvda"
        = { stock_symbol := pyUpper "nvda"
            analysis_date := "d"
            financial_data_html := "<table/>"
            company_sentiment := "c+"
            sector_sentiment := "s-"
            rating_result := StockRater.rate_stock
              (oracleLlmFail.rateLlm "<table/>" "c+" "s-" "nvda") "nvda"
            processing_time_seconds := 2 - 0
            success := true
            error_message := none } :=
  ⟨(C2_orchestrator_isolates_stage_failures oracleFundFail 1 3 "d" "aapl").1
      "fund down" rfl,
   (C2_orchestrator_isolates_stage_failures oracleSentFail 0 2 "d" "msft").2.1
      "<table/>" "sentiment down" rfl rfl,
   (C2_orchestrator_isolates_stage_failures oracleLlmFail 0 2 "d" "nvda").2.2.1
      "<table/>" "c+" "s-" rfl rfl⟩

/-- C3: the batch result has the same length as the input and its `i`-th
    record is exactly the analysis of the `i`-th input symbol, so nothing is
    reordered or dropped, every record is a function of its own symbol alone,
    and no subject's failure (already absorbed inside `analyze_stock`) can
    change another record or cut the batch short. -/
theorem C3_batch_preserves_length_and_order (o : StageOracles) (tStart tEnd : ℚ)
    (d : String) (symbols : List String) :
    (StockAnalysisPipeline.batch_analyze_stocks o tStart tEnd d symbols).length
        = symbols.length
    ∧ ∀ i : ℕ,
      (StockAnalysisPipeline.batch_analyze_stocks o tStart tEnd d symbols)[i]?
        = (symbols[i]?).map (StockAnalysisPipeline.analyze_stock o tStart tEnd d) := by
  refine ⟨?_, ?_⟩
  · simp [StockAnalysisPipeline.batch_analyze_stocks]
  · intro i
    simp [StockAnalysisPipeline.batch_analyze_stocks]

/-- C1: the rating stored in every analysis record is one of the five
    enumerated members, and every degraded path -- a failed stage, a failed
    rating-model call, a reply without a decodable object, or a decoded
    object that cannot be turned into a verdict -- produces `HOLD`. -/
theorem C1_rating_always_in_enumeration (o : StageOracles) (tStart tEnd : ℚ)
    (d s : String) :
    (StockAnalysisPipeline.analyze_stock o tStart tEnd d
        s).rating_result.rating ∈ fiveRatings
    ∧ ((StockAnalysisPipeline.analyze_stock o tStart tEnd d s).success = false →
      (StockAnalysisPipeline.analyze_stock o tStart tEnd d
          s).rating_result.rating = Rating.HOLD)
    ∧ (∀ name e, (StockRater.rate_stock (Except.error e) name).rating = Rating.HOLD)
    ∧ (∀ name raw, (extractJson (stripList raw.data)).bind jsonLoadsChars = none →
      (StockRater.rate_stock (Except.ok raw) name).rating = Rating.HOLD)
    ∧ (∀ name raw cap v e, extractJson (stripList raw.data) = some cap →
      jsonLoadsChars cap = some v → buildRatingResult v = Except.error e →
      (StockRater.rate_stock (Except.ok raw) name).rating = Rating.HOLD) := by
  refine ⟨mem_fiveRatings _, ?_, ?_, ?_, ?_⟩
  · intro hsucc
    cases hf : o.fund s with
    | error e => rw [analyze_fund_err hf]; rfl
    | ok fin =>
      cases hs : o.sent s with
      | error e => rw [analyze_sent_err hf hs]; rfl
      | ok p =>
        obtain ⟨cs, ss⟩ := p
        rw [analyze_ok hf hs] at hsucc
        exact absurd hsucc (by simp)
  · intro name e
    rfl
  · intro name raw h
    rw [rate_stock_extract_fail h]
    rfl
  · intro name raw cap v e hx hj hb
    rw [rate_stock_build_err hx hj hb]
    rfl

/-- Closed instantiation of C1: a failed run, a failed model call, an
    unparseable reply and a field-deficient reply all carry `HOLD`. -/
theorem C1_rating_always_in_enumeration_witness :
    (StockAnalysisPipeline.analyze_stock oracleFundFail 0 1 "d"
        "aapl").rating_result.rating = Rating.HOLD
    ∧ (StockRater.rate_stock (Except.error "boom") "A").rating = Rating.HOLD
    ∧ (StockRater.rate_stock (Except.ok proseReply) "A").rating = Rating.HOLD
    ∧ (StockRater.rate_stock (Except.ok missingRatingReply) "A").rating
        = Rating.HOLD :=
  ⟨(C1_rating_always_in_enumeration oracleFundFail 0 1 "d" "aapl").2.1 (by decide),
   (C1_rating_always_in_enumeration oracleFundFail 0 1 "d" "aapl").2.2.1 "A" "boom",
   (C1_rating_always_in_enumeration oracleFundFail 0 1 "d" "aapl").2.2.2.1 "A"
      proseReply (by rfl),
   (C1_rating_always_in_enumeration oracleFundFail 0 1 "d" "aapl").2.2.2.2 "A"
      missingRatingReply missingRatingReply.data
      ((jsonLoadsChars missingRatingReply.data).get (by rfl)) (quoted1 "rating")
      (by rfl) (Option.some_get (by rfl)).symm (by rfl)⟩

/-- C6: when no JSON object can be extracted and decoded from the stripped
    reply -- in particular for pure prose -- `rate_stock` deterministically
    returns the Level-4 parse fallback: rating `HOLD`, confidence `0.5`, and
    the fixed parsing-error factor entry. -/
theorem C6_pure_prose_yields_fallback (name raw : String)
    (h : (extractJson (stripList raw.data)).bind jsonLoadsChars = none) :
    StockRater.rate_stock (Except.ok raw) name
        = StockRater.create_fallback_rating name (String.mk (stripList raw.data))
    ∧ (StockRater.rate_stock (Except.ok raw) name).rating = Rating.HOLD
    ∧ (StockRater.rate_stock (Except.ok raw) name).confidence = 1 / 2
    ∧ (StockRater.rate_stock (Except.ok raw) name).key_factors
        = ["Analysis incomplete due to parsing error"] := by
  have hmain := @rate_stock_extract_fail raw name h
  exact ⟨hmain, by rw [hmain]; rfl, by rw [hmain]; rfl, by rw [hmain]; rfl⟩

/-- Closed instantiation of C6 at a concrete prose reply. -/
theorem C6_pure_prose_yields_fallback_witness :
    StockRater.rate_stock (Except.ok proseReply) "AAPL"
        = StockRater.create_fallback_rating "AAPL"
            (String.mk (stripList proseReply.data))
    ∧ (StockRater.rate_stock (Except.ok proseReply) "AAPL").confidence = 1 / 2 :=
  ⟨(C6_pure_prose_yields_fallback "AAPL" proseReply (by rfl)).1,
   (C6_pure_prose_yields_fallback "AAPL" proseReply (by rfl)).2.2.1⟩

/-- C8 (code bug): `summarize_article` returns the mutated article object --
    not the summary text its docstring and `-> str` annotation promise -- so
    the value handed to sentiment scoring is the interpolated repr of a list
    of article objects rather than a concatenated corpus of summary texts.
    The two scoring calls (company and sector mode, both targeting the
    subject) and the unmodified return of their raw texts are also evaluated
    here. -/
theorem C8_summaries_are_article_objects_not_text :
    SentimentCollator.summarize_article (fun _ _ => Except.ok "S") sampleArticle
        = SummarizeReturn.art { sampleArticle with summary := some "S" }
    ∧ SentimentCollator.company_user_prompt
        (SentimentCollator.summarize_all_articles (fun _ _ => Except.ok "S")
          [sampleArticle]) "ACME"
        ≠ "Company Name: ACME\nSummary: S"
    ∧ SentimentCollator.get_stock_sentiment (fun _ _ => Except.ok "S")
        (fun _ _ => Except.ok "fine") [sampleArticle] "ACME" = ("fine", "fine") := by
  refine ⟨by decide, by decide, by decide⟩

/-! ### Report-aggregation lemmas and claims C9 -/

/-- One histogram bump raises the total count by one. -/
theorem bumpCount_snd_sum (l : List (String × ℕ)) (k : String) :
    ((StockAnalysisPipeline.bumpCount l k).map Prod.snd).sum
      = (l.map Prod.snd).sum + 1 := by
  induction l with
  | nil => simp [StockAnalysisPipeline.bumpCount]
  | cons hd tl ih =>
    obtain ⟨k0, n⟩ := hd
    by_cases h : k0 = k
    · simp [StockAnalysisPipeline.bumpCount, h]
      omega
    · simp [StockAnalysisPipeline.bumpCount, h, ih]
      omega

/-- Folding the bump over a record list adds its length to the total count. -/
theorem counts_sum_foldl (rs : List StockAnalysisResult) :
    ∀ acc : List (String × ℕ),
      ((rs.foldl (fun a r => StockAnalysisPipeline.bumpCount a
          r.rating_result.rating.value) acc).map Prod.snd).sum
        = (acc.map Prod.snd).sum + rs.length := by
  induction rs with
  | nil => intro acc; simp
  | cons hd tl ih =>
    intro acc
    simp only [List.foldl_cons, ih, bumpCount_snd_sum, List.length_cons]
    omega

/-- The histogram counts sum to the number of successful records. -/
theorem rating_counts_total (results : List StockAnalysisResult) :
    ((StockAnalysisPipeline.rating_counts results).map Prod.snd).sum
      = (StockAnalysisPipeline.successful_results results).length := by
  unfold StockAnalysisPipeline.rating_counts
  rw [counts_sum_foldl]
  simp

/-- Distributing the common `/ N * 100` factor over a histogram sum. -/
theorem perc_list_sum (N : ℚ) (l : List (String × ℕ)) :
    (l.map (fun p => ((p.2 : ℚ) / N) * 100)).sum
      = (((l.map Prod.snd).sum : ℕ) : ℚ) / N * 100 := by
  induction l with
  | nil => simp
  | cons hd tl ih =>
    simp only [List.map_cons, List.sum_cons, ih]
    push_cast
    ring

/-- C9 counterexample: for a non-empty batch whose records all failed, the
    histogram is empty and its percentages sum to 0, not 100, so the claim
    as stated fails on an all-failed record list. -/
theorem C9_counterexample_all_failed_percentages :
    ([failedRec] : List StockAnalysisResult) ≠ []
    ∧ StockAnalysisPipeline.rating_counts [failedRec] = []
    ∧ ((StockAnalysisPipeline.rating_counts [failedRec]).map
        (fun p => StockAnalysisPipeline.rating_percentage [failedRec] p.2)).sum = 0
    ∧ (0 : ℚ) ≠ 100 := by
  refine ⟨by simp, rfl, rfl, by norm_num⟩

/-- C9 (amended to batches with at least one successful record): the total
    elapsed time is the sum over all records, the mean confidence is the
    successful-record mean, and the histogram percentages -- denominator the
    successful-record count -- sum to 100%. -/
theorem C9_report_aggregates (results : List StockAnalysisResult)
    (h : StockAnalysisPipeline.successful_results results ≠ []) :
    StockAnalysisPipeline.total_processing_time results
        = (results.map (fun r => r.processing_time_seconds)).sum
    ∧ StockAnalysisPipeline.avg_confidence results
        = ((StockAnalysisPipeline.successful_results results).map
            (fun r => r.rating_result.confidence)).sum
          / ((StockAnalysisPipeline.successful_results results).length : ℚ)
    ∧ ((StockAnalysisPipeline.rating_counts results).map
        (fun p => StockAnalysisPipeline.rating_percentage results p.2)).sum = 100 := by
  refine ⟨rfl, ?_, ?_⟩
  · unfold StockAnalysisPipeline.avg_confidence
    rw [if_neg h]
  · have hN : ((StockAnalysisPipeline.successful_results results).length : ℚ) ≠ 0 := by
      simp only [ne_eq, Nat.cast_eq_zero, List.length_eq_zero]
      exact h
    simp only [StockAnalysisPipeline.rating_percentage]
    rw [perc_list_sum, rating_counts_total, div_self hN]
    norm_num

/-- Closed instantiation of C9: three successful records with confidences
    0.6, 0.8, 1.0 give mean confidence 0.8 and percentages summing to 100%. -/
theorem C9_report_aggregates_witness :
    StockAnalysisPipeline.successful_results demoRecords ≠ []
    ∧ StockAnalysisPipeline.avg_confidence demoRecords = 4 / 5
    ∧ ((StockAnalysisPipeline.rating_counts demoRecords).map
        (fun p => StockAnalysisPipeline.rating_percentage demoRecords p.2)).sum
      = 100 := by
  have hne : StockAnalysisPipeline.successful_results demoRecords ≠ [] := by
    simp [StockAnalysisPipeline.successful_results, demoRecords, okRec]
  refine ⟨hne, ?_, (C9_report_aggregates demoRecords hne).2.2⟩
  rw [(C9_report_aggregates demoRecords hne).2.1]
  simp [StockAnalysisPipeline.successful_results, demoRecords, okRec]
  norm_num

/-! ### Inversion of a successful verdict construction, and claims C4 -/

/-- A successful `Rating(...)` call means the value was one of the five
    enumeration strings. -/
theorem ratingOfJVal_ok {rv : JVal} {rt : Rating} (h : ratingOfJVal rv = Except.ok rt) :
    ∃ s, rv = JVal.jstr s ∧ Rating.fromValue s = some rt := by
  cases rv with
  | jstr s =>
    refine ⟨s, rfl, ?_⟩
    cases hc : Rating.fromValue s with
    | none =>
      simp only [ratingOfJVal, hc] at h
      exact Except.noConfusion h
    | some rr =>
      simp only [ratingOfJVal, hc] at h
      rw [Except.ok.inj h]
  | jnull => exact Except.noConfusion h
  | jbool b => exact Except.noConfusion h
  | jnum q => exact Except.noConfusion h
  | jarr xs => exact Except.noConfusion h
  | jobj kvs => exact Except.noConfusion h

/-- If the `RatingResult(...)` construction succeeds, every required key was
    present and the rating value was a valid enumeration string. -/
theorem buildOk_fields {kvs : List (String × JVal)} {r : RatingResult}
    (h : buildRatingResult (JVal.jobj kvs) = Except.ok r) :
    (∀ k ∈ requiredKeys, (objFind kvs k).isSome)
    ∧ ∃ s, objFind kvs "rating" = some (JVal.jstr s)
        ∧ Rating.fromValue s = some r.rating := by
  cases h1 : objFind kvs "rating" with
  | none =>
    simp only [buildRatingResult, objGet, h1] at h
    exact Except.noConfusion h
  | some rv =>
  cases h2 : ratingOfJVal rv with
  | error e =>
    simp only [buildRatingResult, objGet, h1, h2] at h
    exact Except.noConfusion h
  | ok rt =>
  cases h3 : objFind kvs "confidence" with
  | none =>
    simp only [buildRatingResult, objGet, h1, h2, h3] at h
    exact Except.noConfusion h
  | some cv =>
  cases h4 : pyFloat cv with
  | error e =>
    simp only [buildRatingResult, objGet, h1, h2, h3, h4] at h
    exact Except.noConfusion h
  | ok q =>
  cases h5 : objFind kvs "reasoning" with
  | none =>
    simp only [buildRatingResult, objGet, h1, h2, h3, h4, h5] at h
    exact Except.noConfusion h
  | some rs =>
  cases h6 : objFind kvs "key_factors" with
  | none =>
    simp only [buildRatingResult, objGet, h1, h2, h3, h4, h5, h6] at h
    exact Except.noConfusion h
  | some kf =>
  cases h7 : objFind kvs "risk_factors" with
  | none =>
    simp only [buildRatingResult, objGet, h1, h2, h3, h4, h5, h6, h7] at h
    exact Except.noConfusion h
  | some rf =>
  cases h8 : objFind kvs "recommendation_summary" with
  | none =>
    simp only [buildRatingResult, objGet, h1, h2, h3, h4, h5, h6, h7, h8] at h
    exact Except.noConfusion h
  | some sm =>
  have hr : r.rating = rt := by
    simp only [buildRatingResult, objGet, h1, h2, h3, h4, h5, h6, h7, h8] at h
    rw [← Except.ok.inj h]
  obtain ⟨s, hs, hv⟩ := ratingOfJVal_ok h2
  constructor
  · intro k hk
    simp only [requiredKeys, List.mem_cons, List.not_mem_nil, or_false] at hk
    rcases hk with rfl | rfl | rfl | rfl | rfl | rfl
    · rw [h1]; rfl
    · rw [h3]; rfl
    · rw [h5]; rfl
    · rw [h6]; rfl
    · rw [h7]; rfl
    · rw [h8]; rfl
  · exact ⟨s, by rw [hs], by rw [hv, hr]⟩

/-- C4 counterexample: the reply `{"confidence": 0.7}` parses to an object
    (so the claim's antecedent holds: parsed, but `rating` missing), yet
    `rate_stock` returns the error verdict with confidence 0 -- not the
    parse fallback with confidence 0.5 the claim requires. -/
theorem C4_counterexample_missing_field_not_fallback :
    (extractJson (stripList missingRatingReply.data)).isSome = true
    ∧ ((extractJson (stripList missingRatingReply.data)).bind jsonLoadsChars).isSome
        = true
    ∧ (jFindKey "rating"
        ((extractJson (stripList missingRatingReply.data)).bind
          jsonLoadsChars)).isNone = true
    ∧ (jFindKey "confidence"
        ((extractJson (stripList missingRatingReply.data)).bind
          jsonLoadsChars)).isSome = true
    ∧ StockRater.rate_stock (Except.ok missingRatingReply) "AAPL"
        = StockRater.create_error_rating "AAPL" (quoted1 "rating")
    ∧ (StockRater.rate_stock (Except.ok missingRatingReply) "AAPL").confidence = 0
    ∧ (StockRater.rate_stock (Except.ok missingRatingReply) "AAPL").key_factors
        ≠ (StockRater.create_fallback_rating "AAPL"
            (pyStrip missingRatingReply)).key_factors
    ∧ StockRater.rate_stock (Except.ok missingRatingReply) "AAPL"
        ≠ StockRater.create_fallback_rating "AAPL" (pyStrip missingRatingReply) := by
  refine ⟨rfl, rfl, rfl, rfl, rfl, rfl, by decide, ?_⟩
  intro h
  exact absurd (congrArg RatingResult.key_factors h) (by decide)

/-- C4 (amended): a reply whose extracted object decodes but is missing a
    required field or carries an invalid rating string produces the ERROR
    verdict (rating `HOLD`, confidence 0.0, reasoning embedding the
    exception text) -- the parse fallback with confidence 0.5 arises only
    when no object can be extracted and decoded at all. -/
theorem C4_missing_field_or_bad_rating_gives_error_verdict
    (name raw : String) (cap : List Char) (kvs : List (String × JVal))
    (hx : extractJson (stripList raw.data) = some cap)
    (hj : jsonLoadsChars cap = some (JVal.jobj kvs)) :
    (∀ e, buildRatingResult (JVal.jobj kvs) = Except.error e →
      StockRater.rate_stock (Except.ok raw) name
        = StockRater.create_error_rating name e)
    ∧ (((∃ k, k ∈ requiredKeys ∧ objFind kvs k = none)
        ∨ ∃ s, objFind kvs "rating" = some (JVal.jstr s)
            ∧ Rating.fromValue s = none) →
      ∃ e, buildRatingResult (JVal.jobj kvs) = Except.error e
        ∧ (StockRater.rate_stock (Except.ok raw) name).rating = Rating.HOLD
        ∧ (StockRater.rate_stock (Except.ok raw) name).confidence = 0) := by
  constructor
  · intro e hb
    exact rate_stock_build_err hx hj hb
  · intro hbad
    cases hb : buildRatingResult (JVal.jobj kvs) with
    | error e =>
      refine ⟨e, rfl, ?_, ?_⟩
      · rw [rate_stock_build_err hx hj hb]; rfl
      · rw [rate_stock_build_err hx hj hb]; rfl
    | ok r =>
      exfalso
      obtain ⟨hkeys, s, hsx, hsv⟩ := buildOk_fields hb
      rcases hbad with ⟨k, hk, hnone⟩ | ⟨s2, hs2, hv2⟩
      · have := hkeys k hk
        rw [hnone] at this
        exact Bool.noConfusion this
      · rw [hsx] at hs2
        have : s2 = s := by
          have := Option.some.inj hs2
          exact (JVal.jstr.inj this).symm
        rw [this, hsv] at hv2
        exact Option.noConfusion hv2

/-- Closed instantiation of the amended C4 at the missing-`rating` reply. -/
theorem C4_missing_field_gives_error_verdict_witness :
    StockRater.rate_stock (Except.ok missingRatingReply) "MSFT"
        = StockRater.create_error_rating "MSFT" (quoted1 "rating")
    ∧ (StockRater.rate_stock (Except.ok missingRatingReply) "MSFT").rating
        = Rating.HOLD := by
  have hsome : (jsonLoadsChars missingRatingReply.data).isSome = true := rfl
  have hj : jsonLoadsChars missingRatingReply.data
      = some ((jsonLoadsChars missingRatingReply.data).get hsome) :=
    (Option.some_get hsome).symm
  have hkvs : ∃ kvs, (jsonLoadsChars missingRatingReply.data).get hsome
      = JVal.jobj kvs := by
    exact ⟨_, rfl⟩
  obtain ⟨kvs, hk⟩ := hkvs
  have happ := C4_missing_field_or_bad_rating_gives_error_verdict "MSFT"
    missingRatingReply missingRatingReply.data kvs rfl (by rw [hj, hk])
  have hmain := happ.1 (quoted1 "rating") (by rw [← hk]; rfl)
  exact ⟨hmain, by rw [hmain]; rfl⟩

/-! ### C5 development: character and token lemmas -/

theorem skipJWs_cons_pos {c : Char} {l : List Char} (h : isJWs c = true) :
    skipJWs (c :: l) = skipJWs l := by
  simp [skipJWs, List.dropWhile_cons, h]

theorem skipJWs_cons_neg {c : Char} {l : List Char} (h : isJWs c = false) :
    skipJWs (c :: l) = c :: l := by
  simp [skipJWs, List.dropWhile_cons, h]

theorem parseStrBody_append (s : List Char) (r : List Char)
    (hs : ∀ c ∈ s, goodChar c) :
    parseStrBody (s ++ qq :: r) = some (s, r) := by
  induction s with
  | nil =>
    rw [List.nil_append, parseStrBody.eq_def]
    simp
  | cons c t ih =>
    have hg := hs c (by simp)
    have ht : ∀ x ∈ t, goodChar x := fun x hx => hs x (by simp [hx])
    rw [List.cons_append, parseStrBody.eq_def]
    simp only
    rw [if_neg hg.2.1, if_neg hg.2.2.1, if_neg (Nat.not_lt.2 hg.1), ih ht]
    rfl

theorem digitChar_props {d : ℕ} (h : d < 10) :
    (digitChar d).isDigit = true ∧ digitVal (digitChar d) = d
    ∧ isJWs (digitChar d) = false ∧ isPyWs (digitChar d) = false
    ∧ digitChar d ≠ qq ∧ digitChar d ≠ '{' ∧ digitChar d ≠ '['
    ∧ digitChar d ≠ 'n' ∧ digitChar d ≠ 't' ∧ digitChar d ≠ 'f'
    ∧ digitChar d ≠ '-' ∧ digitChar d ≠ bq ∧ digitChar d ≠ '}' := by
  interval_cases d <;> exact (by decide)

theorem digitChar_eq_zeroChar {d : ℕ} (h : d < 10) :
    (digitChar d = '0') ↔ d = 0 := by
  interval_cases d <;> exact (by decide)

theorem split_digits_append (ds r : List Char)
    (hds : ∀ c ∈ ds, c.isDigit = true)
    (hr : ∀ c, r.head? = some c → c.isDigit = false) :
    (ds ++ r).takeWhile Char.isDigit = ds
    ∧ (ds ++ r).dropWhile Char.isDigit = r := by
  induction ds with
  | nil =>
    cases r with
    | nil => simp
    | cons c t =>
      have := hr c rfl
      simp [List.takeWhile_cons, List.dropWhile_cons, this]
  | cons c t ih =>
    have h1 := hds c (by simp)
    have ih2 := ih (fun x hx => hds x (by simp [hx]))
    simp [List.takeWhile_cons, List.dropWhile_cons, h1, ih2.1, ih2.2]

theorem map_digitChar_isDigit (ds : List ℕ) (h : ∀ d ∈ ds, d < 10) :
    ∀ c ∈ ds.map digitChar, c.isDigit = true := by
  intro c hc
  obtain ⟨d, hd, rfl⟩ := List.mem_map.1 hc
  exact (digitChar_props (h d hd)).1

theorem natOfDigits_foldl (ds : List ℕ) (h : ∀ d ∈ ds, d < 10) :
    ∀ a : ℕ, (ds.map digitChar).foldl (fun x c => 10 * x + digitVal c) a
      = ds.foldl (fun x d => 10 * x + d) a := by
  induction ds with
  | nil => intro a; rfl
  | cons d t ih =>
    intro a
    simp only [List.map_cons, List.foldl_cons]
    rw [(digitChar_props (h d (by simp))).2.1]
    exact ih (fun x hx => h x (by simp [hx])) _

theorem natOfDigits_map (ds : List ℕ) (h : ∀ d ∈ ds, d < 10) :
    natOfDigits (ds.map digitChar) = digitsVal ds :=
  natOfDigits_foldl ds h 0

theorem digitChar_ne_minus {d : ℕ} (h : d < 10) : digitChar d ≠ '-' :=
  (digitChar_props h).2.2.2.2.2.2.2.2.2.2.1

theorem parseNumber_round (dw df : List ℕ) (d0 : Char) (r : List Char)
    (hdw : digitsOk dw) (hdf : ∀ d ∈ df, d < 10)
    (h1 : d0.isDigit = false) (h2 : d0 ≠ '.') (h3 : d0 ≠ 'e') (h4 : d0 ≠ 'E') :
    parseNumber (dw.map digitChar
        ++ ((if df = [] then [] else '.' :: df.map digitChar) ++ d0 :: r))
      = some ((digitsVal dw : ℚ) + (digitsVal df : ℚ) / (10 : ℚ) ^ df.length,
          d0 :: r) := by
  obtain ⟨hne, hlt, hlz⟩ := hdw
  have htailhead : ∀ c, ((if df = [] then [] else '.' :: df.map digitChar)
      ++ d0 :: r).head? = some c → c.isDigit = false := by
    intro c hc
    by_cases hdf0 : df = []
    · rw [hdf0] at hc
      simp at hc
      exact hc ▸ h1
    · rw [if_neg hdf0] at hc
      simp at hc
      rw [← hc]
      decide
  have hsplit := split_digits_append (dw.map digitChar)
    ((if df = [] then [] else '.' :: df.map digitChar) ++ d0 :: r)
    (map_digitChar_isDigit dw hlt) htailhead
  cases dw with
  | nil => exact absurd rfl hne
  | cons w0 wt =>
  have hw0 : w0 < 10 := hlt w0 (by simp)
  have hnum : natOfDigits (digitChar w0 :: wt.map digitChar)
      = digitsVal (w0 :: wt) := by
    have := natOfDigits_map (w0 :: wt) hlt
    simpa using this
  rw [parseNumber.eq_def]
  simp only [List.map_cons, List.cons_append] at hsplit ⊢
  rw [if_neg (digitChar_ne_minus hw0)]
  simp only [hsplit.1, hsplit.2]
  have hlz2 : (digitChar w0 = '0' && !(wt.map digitChar).isEmpty) = false := by
    by_cases hw00 : w0 = 0
    · have hl : w0 :: wt = [0] := hlz (by rw [hw00]; rfl)
      have hwt : wt = [] := (List.cons.inj hl).2
      simp [hwt]
    · rw [Bool.and_eq_false_iff]
      left
      simp only [decide_eq_false_iff_not]
      intro hcc
      exact hw00 ((digitChar_eq_zeroChar hw0).1 hcc)
  rw [hlz2]
  by_cases hdf0 : df = []
  · subst hdf0
    simp only [if_pos rfl, List.nil_append]
    simp [fracPart, expPart, h2, h3, h4, hnum, digitsVal]
  · rw [if_neg hdf0]
    obtain ⟨f0, ft, rfl⟩ : ∃ f0 ft, df = f0 :: ft := by
      cases df with
      | nil => exact absurd rfl hdf0
      | cons a b => exact ⟨a, b, rfl⟩
    have hsplit2 := split_digits_append ((f0 :: ft).map digitChar) (d0 :: r)
      (map_digitChar_isDigit (f0 :: ft) hdf)
      (by intro c hc; simp at hc; exact hc ▸ h1)
    have hnum2 : natOfDigits (digitChar f0 :: ft.map digitChar)
        = digitsVal (f0 :: ft) := by
      have := natOfDigits_map (f0 :: ft) hdf
      simpa using this
    simp only [List.map_cons, List.cons_append] at hsplit2 ⊢
    simp [fracPart, parseFrac, expPart, h2, h3, h4, hsplit2.1, hsplit2.2,
      hnum, hnum2]

theorem mk_data_eq (s : String) : String.mk s.data = s := by
  cases s
  rfl

theorem parseValF_ws (n : ℕ) (l : List Char) :
    parseValF (n + 1) (' ' :: l) = parseValF (n + 1) l := by
  rw [parseValF.eq_def, parseValF.eq_def]
  simp only [Nat.add_one]
  rw [skipJWs_cons_pos (by decide)]

theorem parseValF_str (n : ℕ) (s r : List Char) (hs : ∀ c ∈ s, goodChar c) :
    parseValF (n + 1) (qq :: (s ++ qq :: r)) = some (JVal.jstr (String.mk s), r) := by
  rw [parseValF.eq_def]
  simp only [Nat.add_one]
  rw [skipJWs_cons_neg (by decide)]
  simp [parseStrBody_append s r hs]

theorem parseValF_numChars (n : ℕ) (f : ReplyFields) (d0 : Char) (r : List Char)
    (hdw : digitsOk f.confWhole) (hdf : ∀ d ∈ f.confFrac, d < 10)
    (h1 : d0.isDigit = false) (h2 : d0 ≠ '.') (h3 : d0 ≠ 'e') (h4 : d0 ≠ 'E') :
    parseValF (n + 1) (numChars f ++ d0 :: r)
      = some (JVal.jnum f.confVal, d0 :: r) := by
  have hn := parseNumber_round f.confWhole f.confFrac d0 r hdw hdf h1 h2 h3 h4
  obtain ⟨hne, hlt, hlz⟩ := hdw
  cases hw : f.confWhole with
  | nil => exact absurd hw hne
  | cons w0 wt =>
  have hw0 : w0 < 10 := by
    have h5 := hlt w0
    rw [hw] at h5
    exact h5 (by simp)
  have hp := digitChar_props hw0
  rw [parseValF.eq_def]
  simp only [Nat.add_one]
  rw [hw] at hn
  simp only [numChars, hw, List.map_cons, List.cons_append, List.append_assoc] at hn ⊢
  rw [skipJWs_cons_neg hp.2.2.1]
  simp only [hp.2.2.2.2.1, hp.2.2.2.2.2.1, hp.2.2.2.2.2.2.1, hp.2.2.2.2.2.2.2.1,
    hp.2.2.2.2.2.2.2.2.1, hp.2.2.2.2.2.2.2.2.2.1, if_false]
  rw [hn]
  simp [ReplyFields.confVal, hw]

theorem parseItemsF_ws (n : ℕ) (l : List Char) :
    parseItemsF (n + 1 + 1) (' ' :: l) = parseItemsF (n + 1 + 1) l := by
  rw [parseItemsF.eq_def, parseItemsF.eq_def]
  simp only [Nat.add_one]
  rw [parseValF_ws]

theorem itemsChars_cons2 (x y : String) (t : List String) :
    itemsChars (x :: y :: t) = quoteItem x ++ ',' :: ' ' :: itemsChars (y :: t) := rfl

theorem parseItemsF_round (xs : List String) (hxs : ∀ s ∈ xs, goodStr s) :
    ∀ (m : ℕ) (r : List Char), xs ≠ [] →
      parseItemsF (m + xs.length + 1) (itemsChars xs ++ ']' :: r)
        = some (xs.map JVal.jstr, r) := by
  induction xs with
  | nil => exact fun m r h => absurd rfl h
  | cons x t ih =>
    intro m r _
    have hx : ∀ c ∈ x.data, goodChar c := hxs x (by simp)
    cases t with
    | nil =>
      rw [parseItemsF.eq_def]
      simp only [Nat.add_one, List.length_cons, List.length_nil]
      simp only [Nat.succ_eq_add_one]
      simp only [itemsChars, quoteItem, List.cons_append, List.append_assoc,
        List.nil_append]
      rw [parseValF_str m x.data (']' :: r) hx, mk_data_eq]
      simp only [skipJWs_cons_neg (by decide : isJWs ']' = false)]
      simp
    | cons y t2 =>
      rw [parseItemsF.eq_def]
      simp only [Nat.add_one, List.length_cons]
      simp only [Nat.succ_eq_add_one]
      simp only [itemsChars_cons2, quoteItem, List.cons_append, List.append_assoc,
        List.nil_append]
      rw [(by omega : m + (t2.length + 1 + 1) = m + (t2.length + 1) + 1)]
      rw [parseValF_str (m + (t2.length + 1)) x.data
        (',' :: (' ' :: (itemsChars (y :: t2) ++ ']' :: r))) hx, mk_data_eq]
      simp only [skipJWs_cons_neg (by decide : isJWs ',' = false), if_pos rfl]
      rw [(by omega : m + (t2.length + 1) + 1 = m + t2.length + 1 + 1)]
      rw [parseItemsF_ws (m + t2.length)]
      have ihh := ih (fun s hs => hxs s (by simp [hs])) m r (by simp)
      simp only [List.length_cons] at ihh
      rw [(by omega : m + t2.length + 1 + 1 = m + (t2.length + 1) + 1)]
      rw [ihh]
      simp

theorem parseValF_arr (m : ℕ) (xs : List String) (r : List Char)
    (hxs : ∀ s ∈ xs, goodStr s) :
    parseValF (m + xs.length + 1 + 1) ('[' :: (itemsChars xs ++ ']' :: r))
      = some (JVal.jarr (xs.map JVal.jstr), r) := by
  rw [parseValF.eq_def]
  simp only [Nat.add_one]
  simp only [Nat.succ_eq_add_one]
  rw [skipJWs_cons_neg (by decide : isJWs '[' = false)]
  simp only [(by decide : ('[' : Char) ≠ qq), (by decide : ('[' : Char) ≠ '{'),
    eq_self_iff_true, if_true, if_false]
  cases xs with
  | nil =>
    simp only [itemsChars, List.nil_append]
    rw [skipJWs_cons_neg (by decide : isJWs ']' = false)]
    simp
  | cons x t =>
    obtain ⟨rest, hrest⟩ : ∃ rest, itemsChars (x :: t) = qq :: rest := by
      cases t with
      | nil => exact ⟨x.data ++ [qq], by simp [itemsChars, quoteItem]⟩
      | cons y t2 =>
        exact ⟨x.data ++ [qq] ++ ',' :: ' ' :: itemsChars (y :: t2),
          by simp [itemsChars_cons2, quoteItem]⟩
    rw [hrest]
    simp only [List.cons_append]
    rw [skipJWs_cons_neg (by decide : isJWs qq = false)]
    simp only [(by decide : qq ≠ ']'), if_false]
    rw [← List.cons_append, ← hrest]
    have hr := parseItemsF_round (x :: t) hxs m r (by simp)
    simp only [List.length_cons] at hr ⊢
    rw [hr]
    rfl

theorem parseMembersF_ws (n : ℕ) (l : List Char) :
    parseMembersF (n + 1) (' ' :: l) = parseMembersF (n + 1) l := by
  rw [parseMembersF.eq_def, parseMembersF.eq_def]
  simp only [Nat.add_one]
  rw [skipJWs_cons_pos (by decide)]

theorem parseMembersF_step (n : ℕ) (k : String) (X : List Char) (v : JVal)
    (tail : List Char) (hk : ∀ c ∈ k.data, goodChar c)
    (hv : parseValF n (' ' :: X) = some (v, ',' :: tail)) :
    parseMembersF (n + 1) (keyChunk k X)
      = (parseMembersF n tail).map (fun p => ((k, v) :: p.1, p.2)) := by
  rw [parseMembersF.eq_def]
  simp only [Nat.add_one]
  simp only [keyChunk]
  rw [skipJWs_cons_neg (by decide : isJWs qq = false)]
  simp only [eq_self_iff_true, if_true]
  rw [parseStrBody_append k.data (':' :: ' ' :: X) hk]
  simp only [skipJWs_cons_neg (by decide : isJWs ':' = false), eq_self_iff_true,
    if_true]
  rw [hv]
  simp only [skipJWs_cons_neg (by decide : isJWs ',' = false), eq_self_iff_true,
    if_true, mk_data_eq]

theorem parseMembersF_last (n : ℕ) (k : String) (X : List Char) (v : JVal)
    (r : List Char) (hk : ∀ c ∈ k.data, goodChar c)
    (hv : parseValF n (' ' :: X) = some (v, '}' :: r)) :
    parseMembersF (n + 1) (keyChunk k X) = some ([(k, v)], r) := by
  rw [parseMembersF.eq_def]
  simp only [Nat.add_one]
  simp only [keyChunk]
  rw [skipJWs_cons_neg (by decide : isJWs qq = false)]
  simp only [eq_self_iff_true, if_true]
  rw [parseStrBody_append k.data (':' :: ' ' :: X) hk]
  simp only [skipJWs_cons_neg (by decide : isJWs ':' = false), eq_self_iff_true,
    if_true]
  rw [hv]
  simp only [skipJWs_cons_neg (by decide : isJWs '}' = false),
    (by decide : ('}' : Char) ≠ ','), if_false, eq_self_iff_true, if_true,
    mk_data_eq]

theorem membersBody_brace (f : ReplyFields) :
    membersBody f ++ ['}'] = stream1 f := by
  simp [membersBody, stream1, stream2, stream3, stream4, stream5, stream6,
    keyChunk, List.append_assoc]

theorem fromValue_value (r : Rating) : Rating.fromValue r.value = some r := by
  cases r <;> rfl

theorem mapAsStr (xs : List String) : (xs.map JVal.jstr).map jvalAsStr = xs := by
  induction xs with
  | nil => rfl
  | cons x t ih => simp [jvalAsStr, ih]

theorem buildRating_expected (f : ReplyFields) :
    buildRatingResult (expectedJson f) = Except.ok (expectedVerdict f) := by
  have k1 : objFind [("rating", JVal.jstr f.rating.value),
      ("confidence", JVal.jnum f.confVal), ("reasoning", JVal.jstr f.reasoning),
      ("key_factors", JVal.jarr (f.key_factors.map JVal.jstr)),
      ("risk_factors", JVal.jarr (f.risk_factors.map JVal.jstr)),
      ("recommendation_summary", JVal.jstr f.recommendation_summary)] "rating"
      = some (JVal.jstr f.rating.value) := rfl
  have k2 : objFind [("rating", JVal.jstr f.rating.value),
      ("confidence", JVal.jnum f.confVal), ("reasoning", JVal.jstr f.reasoning),
      ("key_factors", JVal.jarr (f.key_factors.map JVal.jstr)),
      ("risk_factors", JVal.jarr (f.risk_factors.map JVal.jstr)),
      ("recommendation_summary", JVal.jstr f.recommendation_summary)] "confidence"
      = some (JVal.jnum f.confVal) := rfl
  have k3 : objFind [("rating", JVal.jstr f.rating.value),
      ("confidence", JVal.jnum f.confVal), ("reasoning", JVal.jstr f.reasoning),
      ("key_factors", JVal.jarr (f.key_factors.map JVal.jstr)),
      ("risk_factors", JVal.jarr (f.risk_factors.map JVal.jstr)),
      ("recommendation_summary", JVal.jstr f.recommendation_summary)] "reasoning"
      = some (JVal.jstr f.reasoning) := rfl
  have k4 : objFind [("rating", JVal.jstr f.rating.value),
      ("confidence", JVal.jnum f.confVal), ("reasoning", JVal.jstr f.reasoning),
      ("key_factors", JVal.jarr (f.key_factors.map JVal.jstr)),
      ("risk_factors", JVal.jarr (f.risk_factors.map JVal.jstr)),
      ("recommendation_summary", JVal.jstr f.recommendation_summary)] "key_factors"
      = some (JVal.jarr (f.key_factors.map JVal.jstr)) := rfl
  have k5 : objFind [("rating", JVal.jstr f.rating.value),
      ("confidence", JVal.jnum f.confVal), ("reasoning", JVal.jstr f.reasoning),
      ("key_factors", JVal.jarr (f.key_factors.map JVal.jstr)),
      ("risk_factors", JVal.jarr (f.risk_factors.map JVal.jstr)),
      ("recommendation_summary", JVal.jstr f.recommendation_summary)] "risk_factors"
      = some (JVal.jarr (f.risk_factors.map JVal.jstr)) := rfl
  have k6 : objFind [("rating", JVal.jstr f.rating.value),
      ("confidence", JVal.jnum f.confVal), ("reasoning", JVal.jstr f.reasoning),
      ("key_factors", JVal.jarr (f.key_factors.map JVal.jstr)),
      ("risk_factors", JVal.jarr (f.risk_factors.map JVal.jstr)),
      ("recommendation_summary",
        JVal.jstr f.recommendation_summary)] "recommendation_summary"
      = some (JVal.jstr f.recommendation_summary) := rfl
  simp only [expectedJson, buildRatingResult, objGet, k1, k2, k3, k4, k5, k6,
    ratingOfJVal, fromValue_value, pyFloat, jvalAsStr, jvalAsStrList, mapAsStr,
    expectedVerdict]

theorem parseMembersF_stream1 (f : ReplyFields) (hf : f.WF) (n : ℕ) :
    parseMembersF (n + f.key_factors.length + f.risk_factors.length + 13)
        (stream1 f)
      = some ([("rating", JVal.jstr f.rating.value),
               ("confidence", JVal.jnum f.confVal),
               ("reasoning", JVal.jstr f.reasoning),
               ("key_factors", JVal.jarr (f.key_factors.map JVal.jstr)),
               ("risk_factors", JVal.jarr (f.risk_factors.map JVal.jstr)),
               ("recommendation_summary", JVal.jstr f.recommendation_summary)],
             []) := by
  obtain ⟨hdw, hdf, hrs, hkf, hrf, hsm⟩ := hf
  set K := f.key_factors.length with hK
  set R := f.risk_factors.length with hR
  have hvrat : ∀ c ∈ (f.rating.value).data, goodChar c := by
    cases f.rating <;> decide
  have hval6 : parseValF (n + K + R + 7)
      (' ' :: (quoteItem f.recommendation_summary ++ ['}']))
      = some (JVal.jstr f.recommendation_summary, ['}']) := by
    rw [(by omega : n + K + R + 7 = (n + K + R + 6) + 1)]
    rw [parseValF_ws]
    simp only [quoteItem, List.cons_append, List.append_assoc, List.nil_append]
    rw [parseValF_str (n + K + R + 6) f.recommendation_summary.data ['}'] hsm]
  have h6 : parseMembersF (n + K + R + 8) (stream6 f)
      = some ([("recommendation_summary", JVal.jstr f.recommendation_summary)],
          []) := by
    rw [(by omega : n + K + R + 8 = (n + K + R + 7) + 1)]
    simp only [stream6]
    exact parseMembersF_last _ _ _ _ _ (by decide) hval6
  have hval5 : parseValF (n + K + R + 8)
      (' ' :: ('[' :: itemsChars f.risk_factors ++ ']' :: ',' :: ' ' :: stream6 f))
      = some (JVal.jarr (f.risk_factors.map JVal.jstr),
          ',' :: ' ' :: stream6 f) := by
    rw [(by omega : n + K + R + 8 = (n + K + R + 7) + 1)]
    rw [parseValF_ws]
    rw [(by omega : (n + K + R + 7) + 1 = n + K + 6 + R + 1 + 1)]
    rw [hR]
    exact parseValF_arr (n + K + 6) f.risk_factors (',' :: ' ' :: stream6 f) hrf
  have h5 : parseMembersF (n + K + R + 9) (stream5 f)
      = some ([("risk_factors", JVal.jarr (f.risk_factors.map JVal.jstr)),
               ("recommendation_summary", JVal.jstr f.recommendation_summary)],
          []) := by
    rw [(by omega : n + K + R + 9 = (n + K + R + 8) + 1)]
    simp only [stream5]
    rw [parseMembersF_step _ _ _ _ _ (by decide) hval5]
    rw [(by omega : n + K + R + 8 = (n + K + R + 7) + 1), parseMembersF_ws]
    rw [(by omega : (n + K + R + 7) + 1 = n + K + R + 8), h6]
    rfl
  have hval4 : parseValF (n + K + R + 9)
      (' ' :: ('[' :: itemsChars f.key_factors ++ ']' :: ',' :: ' ' :: stream5 f))
      = some (JVal.jarr (f.key_factors.map JVal.jstr),
          ',' :: ' ' :: stream5 f) := by
    rw [(by omega : n + K + R + 9 = (n + K + R + 8) + 1)]
    rw [parseValF_ws]
    rw [(by omega : (n + K + R + 8) + 1 = n + R + 7 + K + 1 + 1)]
    rw [hK]
    exact parseValF_arr (n + R + 7) f.key_factors (',' :: ' ' :: stream5 f) hkf
  have h4 : parseMembersF (n + K + R + 10) (stream4 f)
      = some ([("key_factors", JVal.jarr (f.key_factors.map JVal.jstr)),
               ("risk_factors", JVal.jarr (f.risk_factors.map JVal.jstr)),
               ("recommendation_summary", JVal.jstr f.recommendation_summary)],
          []) := by
    rw [(by omega : n + K + R + 10 = (n + K + R + 9) + 1)]
    simp only [stream4]
    rw [parseMembersF_step _ _ _ _ _ (by decide) hval4]
    rw [(by omega : n + K + R + 9 = (n + K + R + 8) + 1), parseMembersF_ws]
    rw [(by omega : (n + K + R + 8) + 1 = n + K + R + 9), h5]
    rfl
  have hval3 : parseValF (n + K + R + 10)
      (' ' :: (quoteItem f.reasoning ++ ',' :: ' ' :: stream4 f))
      = some (JVal.jstr f.reasoning, ',' :: ' ' :: stream4 f) := by
    rw [(by omega : n + K + R + 10 = (n + K + R + 9) + 1)]
    rw [parseValF_ws]
    simp only [quoteItem, List.cons_append, List.append_assoc, List.nil_append]
    rw [parseValF_str (n + K + R + 9) f.reasoning.data
      (',' :: ' ' :: stream4 f) hrs]
  have h3 : parseMembersF (n + K + R + 11) (stream3 f)
      = some ([("reasoning", JVal.jstr f.reasoning),
               ("key_factors", JVal.jarr (f.key_factors.map JVal.jstr)),
               ("risk_factors", JVal.jarr (f.risk_factors.map JVal.jstr)),
               ("recommendation_summary", JVal.jstr f.recommendation_summary)],
          []) := by
    rw [(by omega : n + K + R + 11 = (n + K + R + 10) + 1)]
    simp only [stream3]
    rw [parseMembersF_step _ _ _ _ _ (by decide) hval3]
    rw [(by omega : n + K + R + 10 = (n + K + R + 9) + 1), parseMembersF_ws]
    rw [(by omega : (n + K + R + 9) + 1 = n + K + R + 10), h4]
    rfl
  have hval2 : parseValF (n + K + R + 11)
      (' ' :: (numChars f ++ ',' :: ' ' :: stream3 f))
      = some (JVal.jnum f.confVal, ',' :: ' ' :: stream3 f) := by
    rw [(by omega : n + K + R + 11 = (n + K + R + 10) + 1)]
    rw [parseValF_ws]
    exact parseValF_numChars (n + K + R + 10) f ',' (' ' :: stream3 f) hdw hdf
      (by decide) (by decide) (by decide) (by decide)
  have h2 : parseMembersF (n + K + R + 12) (stream2 f)
      = some ([("confidence", JVal.jnum f.confVal),
               ("reasoning", JVal.jstr f.reasoning),
               ("key_factors", JVal.jarr (f.key_factors.map JVal.jstr)),
               ("risk_factors", JVal.jarr (f.risk_factors.map JVal.jstr)),
               ("recommendation_summary", JVal.jstr f.recommendation_summary)],
          []) := by
    rw [(by omega : n + K + R + 12 = (n + K + R + 11) + 1)]
    simp only [stream2]
    rw [parseMembersF_step _ _ _ _ _ (by decide) hval2]
    rw [(by omega : n + K + R + 11 = (n + K + R + 10) + 1), parseMembersF_ws]
    rw [(by omega : (n + K + R + 10) + 1 = n + K + R + 11), h3]
    rfl
  have hval1 : parseValF (n + K + R + 12)
      (' ' :: (quoteItem f.rating.value ++ ',' :: ' ' :: stream2 f))
      = some (JVal.jstr f.rating.value, ',' :: ' ' :: stream2 f) := by
    rw [(by omega : n + K + R + 12 = (n + K + R + 11) + 1)]
    rw [parseValF_ws]
    simp only [quoteItem, List.cons_append, List.append_assoc, List.nil_append]
    rw [parseValF_str (n + K + R + 11) (f.rating.value).data
      (',' :: ' ' :: stream2 f) hvrat]
  rw [(by omega : n + K + R + 13 = (n + K + R + 12) + 1)]
  simp only [stream1]
  rw [parseMembersF_step _ _ _ _ _ (by decide) hval1]
  rw [(by omega : n + K + R + 12 = (n + K + R + 11) + 1), parseMembersF_ws]
  rw [(by omega : (n + K + R + 11) + 1 = n + K + R + 12), h2]
  rfl

theorem safe_append {P : Char → Prop} {a b : List Char}
    (ha : ∀ c ∈ a, P c) (hb : ∀ c ∈ b, P c) : ∀ c ∈ a ++ b, P c := by
  intro c hc
  rcases List.mem_append.1 hc with h | h
  · exact ha c h
  · exact hb c h

theorem safe_cons {P : Char → Prop} {c0 : Char} {l : List Char}
    (h0 : P c0) (hl : ∀ c ∈ l, P c) : ∀ c ∈ c0 :: l, P c := by
  intro c hc
  rcases List.mem_cons.1 hc with h | h
  · exact h ▸ h0
  · exact hl c h

theorem digitChar_safe {d : ℕ} (h : d < 10) :
    digitChar d ≠ bq ∧ digitChar d ≠ '}' :=
  ⟨(digitChar_props h).2.2.2.2.2.2.2.2.2.2.2.1,
   (digitChar_props h).2.2.2.2.2.2.2.2.2.2.2.2⟩

theorem goodChar_safe {c : Char} (h : goodChar c) : c ≠ bq ∧ c ≠ '}' :=
  ⟨h.2.2.2.2.2, h.2.2.2.2.1⟩

theorem quoteItem_safe (s : String) (hs : goodStr s) :
    ∀ c ∈ quoteItem s, c ≠ bq ∧ c ≠ '}' := by
  intro c hc
  simp only [quoteItem] at hc
  rcases List.mem_cons.1 hc with h | h
  · exact h ▸ (by decide)
  · rcases List.mem_append.1 h with h2 | h2
    · exact goodChar_safe (hs c h2)
    · exact (List.mem_singleton.1 h2) ▸ (by decide)

theorem itemsChars_safe (xs : List String) (hxs : ∀ s ∈ xs, goodStr s) :
    ∀ c ∈ itemsChars xs, c ≠ bq ∧ c ≠ '}' := by
  induction xs with
  | nil => simp [itemsChars]
  | cons x t ih =>
    have hq := quoteItem_safe x (hxs x (by simp))
    cases t with
    | nil => exact fun c hc => hq c (by simpa [itemsChars] using hc)
    | cons y t2 =>
      intro c hc
      rw [itemsChars_cons2] at hc
      rcases List.mem_append.1 hc with h | h
      · exact hq c h
      · rcases List.mem_cons.1 h with h2 | h2
        · exact h2 ▸ (by decide)
        · rcases List.mem_cons.1 h2 with h3 | h3
          · exact h3 ▸ (by decide)
          · exact ih (fun s hs => hxs s (by simp [hs])) c h3

theorem keyChunk_safe {P : Char → Prop} (k : String) (X : List Char)
    (hq : P qq) (hcolon : P ':') (hsp : P ' ')
    (hk : ∀ c ∈ k.data, P c) (hX : ∀ c ∈ X, P c) : ∀ c ∈ keyChunk k X, P c := by
  intro c hc
  simp only [keyChunk] at hc
  rcases List.mem_cons.1 hc with h | h
  · exact h ▸ hq
  · rcases List.mem_append.1 h with h2 | h2
    · exact hk c h2
    · rcases List.mem_cons.1 h2 with h3 | h3
      · exact h3 ▸ hq
      · rcases List.mem_cons.1 h3 with h4 | h4
        · exact h4 ▸ hcolon
        · rcases List.mem_cons.1 h4 with h5 | h5
          · exact h5 ▸ hsp
          · exact hX c h5

theorem numChars_safe (f : ReplyFields) (hdw : ∀ d ∈ f.confWhole, d < 10)
    (hdf : ∀ d ∈ f.confFrac, d < 10) :
    ∀ c ∈ numChars f, c ≠ bq ∧ c ≠ '}' := by
  intro c hc
  simp only [numChars] at hc
  rcases List.mem_append.1 hc with h | h
  · obtain ⟨d, hd, hdc⟩ := List.mem_map.1 h
    exact hdc ▸ digitChar_safe (hdw d hd)
  · by_cases h0 : f.confFrac = []
    · rw [if_pos h0] at h
      exact absurd h (by simp)
    · rw [if_neg h0] at h
      rcases List.mem_cons.1 h with h2 | h2
      · exact h2 ▸ (by decide)
      · obtain ⟨d, hd, hdc⟩ := List.mem_map.1 h2
        exact hdc ▸ digitChar_safe (hdf d hd)

theorem membersBody_chars (f : ReplyFields) (hf : f.WF) :
    ∀ c ∈ membersBody f, c ≠ bq ∧ c ≠ '}' := by
  obtain ⟨hdw, hdf, hrs, hkf, hrf, hsm⟩ := hf
  have hvrat : goodStr f.rating.value := by
    cases f.rating <;> decide
  refine keyChunk_safe _ _ (by decide) (by decide) (by decide) (by decide) ?_
  refine safe_append (quoteItem_safe _ hvrat) ?_
  refine safe_cons (by decide) (safe_cons (by decide) ?_)
  refine keyChunk_safe _ _ (by decide) (by decide) (by decide) (by decide) ?_
  refine safe_append (numChars_safe f hdw.2.1 hdf) ?_
  refine safe_cons (by decide) (safe_cons (by decide) ?_)
  refine keyChunk_safe _ _ (by decide) (by decide) (by decide) (by decide) ?_
  refine safe_append (quoteItem_safe _ hrs) ?_
  refine safe_cons (by decide) (safe_cons (by decide) ?_)
  refine keyChunk_safe _ _ (by decide) (by decide) (by decide) (by decide) ?_
  refine safe_cons (by decide) ?_
  refine safe_append (itemsChars_safe _ hkf) ?_
  refine safe_cons (by decide) (safe_cons (by decide) (safe_cons (by decide) ?_))
  refine keyChunk_safe _ _ (by decide) (by decide) (by decide) (by decide) ?_
  refine safe_cons (by decide) ?_
  refine safe_append (itemsChars_safe _ hrf) ?_
  refine safe_cons (by decide) (safe_cons (by decide) (safe_cons (by decide) ?_))
  refine keyChunk_safe _ _ (by decide) (by decide) (by decide) (by decide) ?_
  exact quoteItem_safe _ hsm

theorem jsonChars_no_bq (f : ReplyFields) (hf : f.WF) :
    ∀ c ∈ jsonChars f, c ≠ bq := by
  intro c hc
  simp only [jsonChars] at hc
  rcases List.mem_cons.1 hc with h | h
  · exact h ▸ (by decide)
  · rcases List.mem_append.1 h with h2 | h2
    · exact (membersBody_chars f hf c h2).1
    · exact (List.mem_singleton.1 h2) ▸ (by decide)

theorem mem_dropWhile (p : Char → Bool) :
    ∀ (l : List Char) (c : Char), c ∈ List.dropWhile p l → c ∈ l
  | [], c, h => absurd h (by simp)
  | d :: t, c, h => by
    by_cases hd : p d = true
    · rw [List.dropWhile_cons, if_pos hd] at h
      exact List.mem_cons_of_mem d (mem_dropWhile p t c h)
    · rw [List.dropWhile_cons, if_neg hd] at h
      exact h

theorem dropWhile_append_of (p : Char → Bool) :
    ∀ (a b : List Char), List.dropWhile p b = b →
      List.dropWhile p (a ++ b) = List.dropWhile p a ++ b
  | [], b, hb => by simpa using hb
  | c :: t, b, hb => by
    by_cases hc : p c = true
    · rw [List.cons_append, List.dropWhile_cons, if_pos hc,
        List.dropWhile_cons, if_pos hc]
      exact dropWhile_append_of p t b hb
    · rw [List.cons_append, List.dropWhile_cons, if_neg hc,
        List.dropWhile_cons, if_neg hc]
      rfl

theorem dropWhile_cons_false {p : Char → Bool} {c : Char} {t : List Char}
    (h : List.dropWhile p (c :: t) = c :: t) : p c = false := by
  cases hp : p c with
  | false => rfl
  | true =>
    rw [List.dropWhile_cons, if_pos hp] at h
    have h1 : (List.dropWhile p t).length ≤ t.length := (List.dropWhile_sublist _).length_le
    have h2 := congrArg List.length h
    simp only [List.length_cons] at h2
    omega

theorem dropWhile_keep_left (p : Char → Bool) (m b : List Char)
    (hm : List.dropWhile p m = m) (hne : m ≠ []) :
    List.dropWhile p (m ++ b) = m ++ b := by
  cases m with
  | nil => exact absurd rfl hne
  | cons c t =>
    have hc := dropWhile_cons_false hm
    rw [List.cons_append, List.dropWhile_cons, if_neg (by simp [hc])]

theorem stripList_concat (a m b : List Char)
    (hm1 : List.dropWhile isPyWs m = m) (hne : m ≠ [])
    (hm2 : List.dropWhile isPyWs m.reverse = m.reverse) :
    stripList (a ++ (m ++ b))
      = List.dropWhile isPyWs a ++ (m ++ (List.dropWhile isPyWs b.reverse).reverse) := by
  unfold stripList
  rw [dropWhile_append_of isPyWs a (m ++ b) (dropWhile_keep_left _ _ _ hm1 hne)]
  rw [List.reverse_append, List.reverse_append, List.append_assoc]
  rw [dropWhile_append_of isPyWs b.reverse (m.reverse ++ (List.dropWhile isPyWs a).reverse)
    (dropWhile_keep_left _ _ _ hm2 (by simpa using hne))]
  simp [List.reverse_append, List.reverse_reverse, List.append_assoc]

theorem isPrefixOf_self_append : ∀ (l r : List Char), l.isPrefixOf (l ++ r) = true
  | [], _ => by simp [List.isPrefixOf]
  | c :: t, r => by simp [List.isPrefixOf, isPrefixOf_self_append t r]

theorem matchFencedAt_ne (c : Char) (l : List Char) (h : c ≠ bq) :
    matchFencedAt (c :: l) = none := by
  have hbc : (bq == c) = false := beq_eq_false_iff_ne.mpr (Ne.symm h)
  have hp : fenceChars.isPrefixOf (c :: l) = false := by
    simp [fenceChars, List.isPrefixOf, hbc]
  simp [matchFencedAt, hp]

theorem searchFenced_none : ∀ (l : List Char), (∀ c ∈ l, c ≠ bq) → searchFenced l = none
  | [], _ => rfl
  | c :: t, h => by
    have ih := searchFenced_none t (fun x hx => h x (by simp [hx]))
    simp [searchFenced, matchFencedAt_ne c t (h c (by simp)), ih]

theorem searchFenced_prose : ∀ (a b cap : List Char),
    (∀ c ∈ a, c ≠ bq) → matchFencedAt b = some cap → searchFenced (a ++ b) = some cap
  | [], b, cap, _, hm => by
    cases b with
    | nil =>
      rw [show matchFencedAt [] = none from rfl] at hm
      exact Option.noConfusion hm
    | cons c t =>
      simp only [List.nil_append, searchFenced]
      rw [hm]
  | c :: a2, b, cap, ha, hm => by
    have ih := searchFenced_prose a2 b cap (fun x hx => ha x (by simp [hx])) hm
    simp [searchFenced, matchFencedAt_ne c _ (ha c (by simp)), ih]

theorem scanBody_mid : ∀ (mid : List Char), (∀ c ∈ mid, c ≠ '}') →
    ∀ (tl : List Char), wsFence tl = true →
      scanBody (mid ++ '}' :: tl) = some (mid ++ ['}'])
  | [], _, tl, ht => by simp [scanBody, ht]
  | c :: t, hmid, tl, ht => by
    have hc : c ≠ '}' := hmid c (by simp)
    have ih := scanBody_mid t (fun x hx => hmid x (by simp [hx])) tl ht
    simp [scanBody, hc, ih]

theorem stripList_jsonChars (f : ReplyFields) :
    stripList (jsonChars f) = jsonChars f := by
  have h1 : isPyWs '{' = false := by decide
  have h2 : isPyWs '}' = false := by decide
  simp [stripList, jsonChars, List.dropWhile_cons, h1, h2, List.reverse_append,
    List.reverse_cons, List.append_assoc]

theorem directExtract_shape (mid : List Char) :
    directExtract ('{' :: (mid ++ ['}'])) = some ('{' :: (mid ++ ['}'])) := by
  have h1 : (('{' : Char) != '{') = false := by decide
  have h2 : (('}' : Char) != '}') = false := by decide
  simp [directExtract, List.dropWhile_cons, h1, h2, List.reverse_append,
    List.reverse_cons, List.reverse_reverse]

theorem extractJson_jsonChars (f : ReplyFields) (hf : f.WF) :
    extractJson (stripList (jsonChars f)) = some (jsonChars f) := by
  rw [stripList_jsonChars]
  simp only [extractJson]
  rw [searchFenced_none _ (jsonChars_no_bq f hf)]
  simp only [jsonChars, List.cons_append]
  rw [directExtract_shape]

theorem stripList_fencedReply (p1 p2 : String) (f : ReplyFields) :
    stripList (fencedReply p1 f p2)
      = List.dropWhile isPyWs p1.data
          ++ ((fenceChars ++ (tagChars ++ ('\n' :: (jsonChars f ++ ('\n' :: fenceChars)))))
              ++ (List.dropWhile isPyWs p2.data.reverse).reverse) := by
  have hm1 : List.dropWhile isPyWs
      (fenceChars ++ (tagChars ++ ('\n' :: (jsonChars f ++ ('\n' :: fenceChars)))))
      = fenceChars ++ (tagChars ++ ('\n' :: (jsonChars f ++ ('\n' :: fenceChars)))) := by
    simp only [fenceChars, List.cons_append, List.nil_append]
    rw [List.dropWhile_cons, if_neg (by decide)]
  have hne : (fenceChars ++ (tagChars ++ ('\n' :: (jsonChars f ++ ('\n' :: fenceChars)))))
      ≠ [] := by
    simp [fenceChars]
  have hm2 : List.dropWhile isPyWs
      (fenceChars ++ (tagChars ++ ('\n' :: (jsonChars f ++ ('\n' :: fenceChars))))).reverse
      = (fenceChars ++ (tagChars ++ ('\n' :: (jsonChars f ++ ('\n' :: fenceChars))))).reverse := by
    simp only [fenceChars, List.reverse_append, List.reverse_cons, List.reverse_nil,
      List.append_assoc, List.cons_append, List.nil_append]
    rw [List.dropWhile_cons, if_neg (by decide)]
  have e : fencedReply p1 f p2
      = p1.data ++ ((fenceChars ++ (tagChars ++ ('\n' :: (jsonChars f ++ ('\n' :: fenceChars)))))
          ++ p2.data) := by
    simp [fencedReply, List.append_assoc, List.cons_append]
  rw [e, stripList_concat _ _ _ hm1 hne hm2]

theorem matchFencedAt_core (f : ReplyFields) (hf : f.WF) (q : List Char) :
    matchFencedAt
        (fenceChars ++ (tagChars ++ ('\n' :: (jsonChars f ++ ('\n' :: (fenceChars ++ q))))))
      = some (jsonChars f) := by
  have hws : wsFence ('\n' :: (fenceChars ++ q)) = true := by
    simp only [wsFence, fenceChars, List.cons_append, List.nil_append]
    rw [List.dropWhile_cons, if_pos (by decide)]
    rw [List.dropWhile_cons, if_neg (by decide)]
    exact isPrefixOf_self_append [bq, bq, bq] q
  have hscan : scanBody (membersBody f ++ ('}' :: ('\n' :: (fenceChars ++ q))))
      = some (membersBody f ++ ['}']) :=
    scanBody_mid _ (fun c hc => (membersBody_chars f hf c hc).2) _ hws
  have hred : matchFencedAt
        (fenceChars ++ (tagChars ++ ('\n' :: (jsonChars f ++ ('\n' :: (fenceChars ++ q))))))
      = (scanBody ((membersBody f ++ ['}']) ++ ('\n' :: (fenceChars ++ q)))).map
          (fun b => '{' :: b) := rfl
  rw [hred, List.append_assoc, List.singleton_append, hscan]
  simp [jsonChars]

theorem searchFenced_fencedReply (p1 p2 : String) (f : ReplyFields) (hf : f.WF)
    (hp1 : noBq p1) :
    searchFenced (stripList (fencedReply p1 f p2)) = some (jsonChars f) := by
  rw [stripList_fencedReply]
  have hm : matchFencedAt
      ((fenceChars ++ (tagChars ++ ('\n' :: (jsonChars f ++ ('\n' :: fenceChars)))))
        ++ (List.dropWhile isPyWs p2.data.reverse).reverse) = some (jsonChars f) := by
    have e : (fenceChars ++ (tagChars ++ ('\n' :: (jsonChars f ++ ('\n' :: fenceChars)))))
          ++ (List.dropWhile isPyWs p2.data.reverse).reverse
        = fenceChars ++ (tagChars ++ ('\n' :: (jsonChars f
            ++ ('\n' :: (fenceChars ++ (List.dropWhile isPyWs p2.data.reverse).reverse))))) := by
      simp [List.append_assoc, List.cons_append]
    rw [e]
    exact matchFencedAt_core f hf _
  exact searchFenced_prose _ _ _ (fun c hc => hp1 c (mem_dropWhile _ _ _ hc)) hm

theorem extractJson_fencedReply (p1 p2 : String) (f : ReplyFields) (hf : f.WF)
    (hp1 : noBq p1) :
    extractJson (stripList (fencedReply p1 f p2)) = some (jsonChars f) := by
  simp only [extractJson]
  rw [searchFenced_fencedReply p1 p2 f hf hp1]

theorem parseValF_jsonChars (f : ReplyFields) (hf : f.WF) (n : ℕ) :
    parseValF (n + f.key_factors.length + f.risk_factors.length + 13 + 1) (jsonChars f)
      = some (expectedJson f, []) := by
  rw [parseValF.eq_def]
  simp only [Nat.add_one]
  simp only [jsonChars, List.cons_append]
  rw [skipJWs_cons_neg (by decide : isJWs '{' = false)]
  simp only [(by decide : ('{' : Char) ≠ qq), eq_self_iff_true, if_true, if_false]
  rw [show membersBody f ++ ['}'] = stream1 f from membersBody_brace f]
  obtain ⟨rest1, hrest⟩ : ∃ rest, stream1 f = qq :: rest := ⟨_, rfl⟩
  rw [hrest]
  rw [skipJWs_cons_neg (by decide : isJWs qq = false)]
  simp only [(by decide : qq ≠ '}'), if_false]
  rw [← hrest]
  rw [parseMembersF_stream1 f hf n]
  simp [expectedJson]

theorem itemsChars_len : ∀ (xs : List String), xs.length ≤ (itemsChars xs).length
  | [] => by simp [itemsChars]
  | [x] => by
    simp only [itemsChars, quoteItem, List.length_cons, List.length_append,
      List.length_nil]
    omega
  | x :: y :: t => by
    have ih := itemsChars_len (y :: t)
    simp only [itemsChars, quoteItem, List.length_append, List.length_cons,
      List.length_nil]
    simp only [List.length_cons] at ih
    omega

theorem jsonChars_len (f : ReplyFields) :
    f.key_factors.length + f.risk_factors.length + 12 ≤ (jsonChars f).length := by
  have h1 := itemsChars_len f.key_factors
  have h2 := itemsChars_len f.risk_factors
  have e1 : ("rating" : String).data.length = 6 := rfl
  have e2 : ("confidence" : String).data.length = 10 := rfl
  have e3 : ("reasoning" : String).data.length = 9 := rfl
  have e4 : ("key_factors" : String).data.length = 11 := rfl
  have e5 : ("risk_factors" : String).data.length = 12 := rfl
  have e6 : ("recommendation_summary" : String).data.length = 22 := rfl
  by_cases h0 : f.confFrac = [] <;>
    simp only [jsonChars, membersBody, keyChunk, quoteItem, numChars, h0,
      List.length_append, List.length_cons, List.length_nil, List.length_map,
      if_true, if_false, eq_self_iff_true, e1, e2, e3, e4, e5, e6] <;>
    omega

theorem jsonLoads_jsonChars (f : ReplyFields) (hf : f.WF) :
    jsonLoadsChars (jsonChars f) = some (expectedJson f) := by
  have hb := jsonChars_len f
  unfold jsonLoadsChars
  rw [(by omega : (jsonChars f).length + 2
      = ((jsonChars f).length - (f.key_factors.length + f.risk_factors.length + 12))
        + f.key_factors.length + f.risk_factors.length + 13 + 1)]
  rw [parseValF_jsonChars f hf]
  simp [skipJWs]

/-- C5: for every rating-model reply that is exactly a well-formed structured
    object containing all required fields with a valid rating string, and
    likewise for the same object wrapped inside a fenced code block with
    surrounding prose, extraction succeeds and every field of the returned
    verdict (rating, confidence, reasoning, key_factors, risk_factors,
    recommendation_summary) equals the corresponding field of the input
    object verbatim. -/
theorem C5_wellformed_reply_extracted_verbatim (name p1 p2 : String)
    (f : ReplyFields) (hf : f.WF) (hp1 : noBq p1) :
    StockRater.rate_stock (Except.ok (String.mk (jsonChars f))) name = expectedVerdict f
    ∧ StockRater.rate_stock (Except.ok (String.mk (fencedReply p1 f p2))) name
        = expectedVerdict f := by
  constructor
  · exact rate_stock_build_ok (extractJson_jsonChars f hf) (jsonLoads_jsonChars f hf)
      (buildRating_expected f)
  · exact rate_stock_build_ok (extractJson_fencedReply p1 p2 f hf hp1)
      (jsonLoads_jsonChars f hf) (buildRating_expected f)

/-- Witness for C5: the concrete well-formed reply `sampleF`, bare and inside a
    fenced block with prose around it, both come back verbatim. -/
theorem C5_wellformed_reply_extracted_verbatim_witness :
    sampleF.WF ∧ noBq "Here is my analysis: "
    ∧ StockRater.rate_stock (Except.ok (String.mk (jsonChars sampleF))) "AAPL"
        = expectedVerdict sampleF
    ∧ StockRater.rate_stock
        (Except.ok (String.mk (fencedReply "Here is my analysis: " sampleF "\nDone.")))
        "AAPL" = expectedVerdict sampleF :=
  ⟨by decide, by decide,
   (C5_wellformed_reply_extracted_verbatim "AAPL" "Here is my analysis: " "\nDone."
      sampleF (by decide) (by decide)).1,
   (C5_wellformed_reply_extracted_verbatim "AAPL" "Here is my analysis: " "\nDone."
      sampleF (by decide) (by decide)).2⟩
